import Mathlib

/-!
# caps-auto-trigger: a shallow embedding of `main.go` / `model.go`

The development follows the Go sources function by function.

* `model.go`: `TimeRange`, `LogConfig`, `Config`.
* `main.go`: `inActiveTime`, `simulateDoubleCapsLock`, `loadConfig`, `initLogger`,
  the body of the `watchConfig` loop and the body of the `main` loop.

Library calls are modelled by what the Go standard library computes:

* `time.Time` is a pair seconds / nanoseconds counted from January 1 of year 1, 00:00:00 UTC
  (Go's internal epoch) together with a `Location`.  A `Location` is the offset in force
  before the first zone transition and the list of zone transitions, as Go loads them from the
  zone database; `Location.lookup`, `Time.abs` and `time.Date` follow Go's code, including the
  two offset lookups that `time.Date` makes around a transition.
* `time.Parse` is modelled for the single layout `"15:04"` used by the program.
* The YAML decoder, the file system and the text form of a log level are parameters of the
  model (`World`), and so is the key device (`KeyBonding`).
* A call ends by returning, by a panic or by `os.Exit` (`Outcome`); the effects it performs
  are collected in a trace.  Goroutines are not modelled: the branches of the two `select`
  loops are given as functions that handle one event each.
-/

namespace CapsAutoTrigger

/-! ## `model.go` -/

/-- Go `type TimeRange struct { Start string; End string }`. -/
structure TimeRange where
  Start : String
  End : String
  deriving DecidableEq

/-- Go `type LogConfig struct { Level string; Name string }`. -/
structure LogConfig where
  Level : String
  Name : String
  deriving DecidableEq

/-- Go `type Config struct`.  `TimeRanges` is `[]*TimeRange`: an entry is a pointer and may be
nil (`none`), which is what the YAML decoder stores for a null sequence item. -/
structure Config where
  Log : LogConfig
  Ticker : Int
  TimeRanges : List (Option TimeRange)
  Daemon : Bool
  deriving DecidableEq

/-! ## The `time` package -/

/-- Go `zoneTrans`: at the Unix time `when` the zone with the given `offset` (seconds east of
UTC) comes into force. -/
structure ZoneTrans where
  when : Int
  offset : Int
  deriving DecidableEq

/-- A `*time.Location`: `offset` belongs to the zone in force before the first transition,
`tx` lists the transitions in increasing order of `when`, as Go keeps them.  The zone of the
last transition stays in force afterwards (the extension rule that Go applies beyond the last
transition of the database is left out). -/
structure Location where
  offset : Int
  tx : List ZoneTrans
  deriving DecidableEq

/-- The location `time.UTC`. -/
def UTC : Location := ⟨0, []⟩

/-- Go `alpha`: the beginning of time for `lookup`. -/
def alpha : Int := -(2 ^ 63)

/-- Go `omega`: the end of time for `lookup`. -/
def omega : Int := 2 ^ 63 - 1

/-- The search of Go `Location.lookup`, as a scan along the transitions: `offset` and `start`
belong to the zone in force before the transitions that are left.  The result is the offset
in force at `sec` and the period `[start, end)` during which it is in force. -/
def lookupFrom (offset start : Int) : List ZoneTrans → Int → Int × Int × Int
  | [], _ => (offset, start, omega)
  | t :: rest, sec =>
    if sec < t.when then (offset, start, t.when)
    else lookupFrom t.offset t.when rest sec

/-- Go `Location.lookup(sec)`: the offset in force at the Unix time `sec`, with the start and
the end of the period during which it is in force. -/
def Location.lookup (l : Location) (sec : Int) : Int × Int × Int :=
  lookupFrom l.offset alpha l.tx sec

/-- A `time.Time` without monotonic clock reading: `sec` counts seconds since
January 1, year 1 00:00:00 UTC, `nsec` is the nanosecond within that second. -/
structure Time where
  sec : Int
  nsec : Int
  loc : Location
  deriving DecidableEq

def secondsPerMinute : Int := 60
def secondsPerHour : Int := 60 * secondsPerMinute
def secondsPerDay : Int := 24 * secondsPerHour
def daysPer400Years : Int := 365 * 400 + 97
def daysPer100Years : Int := 365 * 100 + 24
def daysPer4Years : Int := 365 * 4 + 1

/-- Go `unixToInternal`: seconds from January 1, year 1 to January 1, 1970. -/
def unixToInternal : Int := (1969 * 365 + 1969 / 4 - 1969 / 100 + 1969 / 400) * secondsPerDay

/-- Go `Time.unixSec`: seconds since January 1, 1970 UTC. -/
def Time.unixSec (t : Time) : Int := t.sec - unixToInternal

/-- Go `Time.abs`: the time as read on the clock of its location, in seconds since the epoch
(here January 1, year 1): the zone offset in force at `t` is added. -/
def Time.abs (t : Time) : Int :=
  let sec := t.unixSec
  let sec := sec + (t.loc.lookup sec).1
  sec + unixToInternal

/-- Go `isLeap`. -/
def isLeap (year : Int) : Bool :=
  year % 4 == 0 && (year % 100 != 0 || year % 400 == 0)

/-- Go `daysBefore`: `daysBefore[m]` counts the days in a non-leap year before month `m+1`. -/
def daysBefore : List Int :=
  [0, 31, 31 + 28, 31 + 28 + 31, 31 + 28 + 31 + 30, 31 + 28 + 31 + 30 + 31,
   31 + 28 + 31 + 30 + 31 + 30, 31 + 28 + 31 + 30 + 31 + 30 + 31,
   31 + 28 + 31 + 30 + 31 + 30 + 31 + 31, 31 + 28 + 31 + 30 + 31 + 30 + 31 + 31 + 30,
   31 + 28 + 31 + 30 + 31 + 30 + 31 + 31 + 30 + 31,
   31 + 28 + 31 + 30 + 31 + 30 + 31 + 31 + 30 + 31 + 30,
   31 + 28 + 31 + 30 + 31 + 30 + 31 + 31 + 30 + 31 + 30 + 31]

/-- Indexing `daysBefore[i]`. -/
def daysBeforeAt (i : Int) : Int := daysBefore.getD i.toNat 0

/-- First half of Go `absDate`: the year of a day number and the day within that year,
by cutting off 400-, 100-, 4- and 1-year cycles. -/
def absYear (days : Int) : Int × Int :=
  let d := days
  let n := d / daysPer400Years
  let y := 400 * n
  let d := d - daysPer400Years * n
  let n := d / daysPer100Years
  let n := n - n / 4
  let y := y + 100 * n
  let d := d - daysPer100Years * n
  let n := d / daysPer4Years
  let y := y + 4 * n
  let d := d - daysPer4Years * n
  let n := d / 365
  let n := n - n / 4
  let y := y + n
  let d := d - 365 * n
  (y + 1, d)

/-- End of Go `absDate`: month and day of the month from the day of the year once the leap
day is out of the way.  The month is estimated assuming 31 days in every month, which may be
one too low. -/
def monthDayCore (day : Int) : Int × Int :=
  let month := day / 31
  let hi := daysBeforeAt (month + 1)
  if day >= hi then (month + 1 + 1, day - hi + 1)
  else (month + 1, day - daysBeforeAt month + 1)

/-- Second half of Go `absDate`: month and day of the month from the day of the year. -/
def absMonthDay (leap : Bool) (yday : Int) : Int × Int :=
  if leap && yday == 31 + 29 - 1 then (2, 29)
  else monthDayCore (if leap && yday > 31 + 29 - 1 then yday - 1 else yday)

/-- Go `absDate(abs, true)`: year, month, day. -/
def absDate (abs : Int) : Int × Int × Int :=
  let (year, yday) := absYear (abs / secondsPerDay)
  let (month, day) := absMonthDay (isLeap year) yday
  (year, month, day)

/-- Go `Time.Year`. -/
def Time.Year (t : Time) : Int := (absDate t.abs).1
/-- Go `Time.Month`. -/
def Time.Month (t : Time) : Int := (absDate t.abs).2.1
/-- Go `Time.Day`. -/
def Time.Day (t : Time) : Int := (absDate t.abs).2.2
/-- Go `Time.Hour`. -/
def Time.Hour (t : Time) : Int := t.abs % secondsPerDay / secondsPerHour
/-- Go `Time.Minute`. -/
def Time.Minute (t : Time) : Int := t.abs % secondsPerHour / secondsPerMinute
/-- Go `Time.Location`. -/
def Time.Location (t : Time) : Location := t.loc

/-- Go `norm`: carry `lo` into `hi` so that `0 ≤ lo < base`. -/
def norm (hi lo base : Int) : Int × Int :=
  let (hi, lo) := if lo < 0 then
      let n := (-lo - 1) / base + 1
      (hi - n, lo + n * base)
    else (hi, lo)
  if lo >= base then
    let n := lo / base
    (hi + n, lo - n * base)
  else (hi, lo)

/-- Go `daysSinceEpoch`: days from January 1 of year 1 to January 1 of `year`. -/
def daysSinceEpoch (year : Int) : Int :=
  let y := year - 1
  let n := y / 400
  let y := y - 400 * n
  let d := daysPer400Years * n
  let n := y / 100
  let y := y - 100 * n
  let d := d + daysPer100Years * n
  let n := y / 4
  let y := y - 4 * n
  let d := d + daysPer4Years * n
  d + 365 * y

/-- The end of Go `time.Date`: from the wall clock, read as if it were Unix time, to the
instant.  The offset is looked up at that pseudo-UTC value; when the instant it leads to lies
outside the period of that offset, the offset is looked up again at that instant. -/
def zoneAdjust (loc : Location) (unix : Int) : Int :=
  let (offset, start, stop) := loc.lookup unix
  if offset != 0 then
    let utc := unix - offset
    let offset := if utc < start || utc >= stop then (loc.lookup utc).1 else offset
    unix - offset
  else unix

/-- Go `time.Date`. -/
def Date (year month day hour min sec nsec : Int) (loc : Location) : Time :=
  let m := month - 1
  let (year, m) := norm year m 12
  let month := m + 1
  let (sec, nsec) := norm sec nsec 1000000000
  let (min, sec) := norm min sec 60
  let (hour, min) := norm hour min 60
  let (day, hour) := norm day hour 24
  let d := daysSinceEpoch year
  let d := d + daysBeforeAt (month - 1)
  let d := if isLeap year && month >= 3 then d + 1 else d
  let d := d + (day - 1)
  let abs := d * secondsPerDay + (hour * secondsPerHour + min * secondsPerMinute + sec)
  let unix := abs - unixToInternal
  let unix := zoneAdjust loc unix
  ⟨unix + unixToInternal, nsec, loc⟩

/-- Go `Time.After` (wall-clock branch). -/
def Time.After (t u : Time) : Bool :=
  t.sec > u.sec || (t.sec == u.sec && t.nsec > u.nsec)

/-- Go `Time.Before` (wall-clock branch). -/
def Time.Before (t u : Time) : Bool :=
  t.sec < u.sec || (t.sec == u.sec && t.nsec < u.nsec)

/-- The zero `time.Time{}`: January 1, year 1, 00:00:00 UTC. -/
def zeroTime : Time := ⟨0, 0, UTC⟩

/-- Go `isDigit(s, i)`: is there a decimal digit at index `i`. -/
def isDigit (s : List Char) (i : Nat) : Bool :=
  match s.get? i with
  | some c => '0'.toNat ≤ c.toNat && c.toNat ≤ '9'.toNat
  | none => false

/-- Value of the digit at index `i` (`s[i] - '0'`). -/
def digitAt (s : List Char) (i : Nat) : Int :=
  match s.get? i with
  | some c => (c.toNat : Int) - ('0'.toNat : Int)
  | none => 0

/-- Go `getnum`: parse one or two leading digits; when `fixed`, exactly two are required.
The result is the number, the rest of the input and whether an error (`errBad`) occurred. -/
def getnum (s : List Char) (fixed : Bool) : Int × List Char × Bool :=
  if !isDigit s 0 then (0, s, true)
  else if !isDigit s 1 then
    if fixed then (0, s, true)
    else (digitAt s 0, s.drop 1, false)
  else (digitAt s 0 * 10 + digitAt s 1, s.drop 2, false)

/-- Go `skip(value, prefix)` for a prefix without spaces: the prefix must be matched
character by character. -/
def skip : List Char → List Char → Option (List Char)
  | value, [] => some value
  | [], _ :: _ => none
  | v :: value, p :: pre => if v != p then none else skip value pre

/-- Go `time.Parse("15:04", value)`.  The layout splits into the chunks `15` (hour, one or two
digits), the literal `:` and `04` (minute, two digits); text left over is an error.  Every
error returns the zero `Time{}`; success returns `Date(0, 1, 1, hour, min, 0, 0, UTC)`. -/
def Parse1504 (value : String) : Time × Option String :=
  let value := value.toList
  let (hour, value, bad) := getnum value false
  if hour < 0 || 24 ≤ hour then (zeroTime, some "hour out of range")
  else if bad then (zeroTime, some "cannot parse as 15")
  else
    match skip value [':'] with
    | none => (zeroTime, some "cannot parse as :")
    | some value =>
      let (min, value, bad) := getnum value true
      if min < 0 || 60 ≤ min then (zeroTime, some "minute out of range")
      else if bad then (zeroTime, some "cannot parse as 04")
      else if value.length != 0 then (zeroTime, some "extra text")
      else (Date 0 1 1 hour min 0 0 UTC, none)

/-! ## Process model -/

/-- How a call ends: it returns a value, the goroutine panics (the process crashes), or the
process exits through `os.Exit`. -/
inductive Outcome (α : Type) where
  | ok (a : α)
  | panic
  | exit (code : Int)
  deriving DecidableEq

/-- The functions whose invocation is recorded in a trace. -/
inductive Fn where
  | loadConfig
  | initLogger
  | onReload
  | simulateDoubleCapsLock
  deriving DecidableEq

/-- Observable effects, in the order in which they happen. -/
inductive Effect where
  | call (f : Fn)
  | log (level : String) (msg : String)
  | press
  | release
  | sleep (ms : Nat)
  deriving DecidableEq

/-- What `initLogger` builds: the file the sink appends to and the minimum level. -/
structure Logger where
  Filename : String
  Level : Int
  deriving DecidableEq

/-- The package-level variables `logger` (nil until `initLogger` has run) and `config`. -/
structure Globals where
  logger : Option Logger
  config : Config
  deriving DecidableEq

/-- The package-level `configPath`. -/
def configPath : String := "config.yaml"

/-- The zero value of `Config`. -/
def zeroConfig : Config := ⟨⟨"", ""⟩, 0, [], false⟩

/-- The surroundings of the process, as seen by the calls it makes. -/
structure World where
  /-- The `os.ReadFile(name)` result: content or error. -/
  ReadFile : String → Except String (List UInt8)
  /-- The `yaml.Unmarshal(data, &newConfig)` result on a zero `Config`: value or error. -/
  Unmarshal : List UInt8 → Except String Config
  /-- The `zapcore.Level.UnmarshalText` result: the level, or `none` for an error. -/
  UnmarshalText : String → Option Int
  /-- The `os.Getenv(key)` result. -/
  Getenv : String → String
  /-- The error of `cmd.Start()` for the re-executed child (`none` is success). -/
  StartChild : Option String
  /-- The error of `keybd_event.NewKeyBonding()` (`none` is success). -/
  NewKeyBonding : Option String

/-- A key device: `Press` and `Release` change the device state and may fail. -/
structure KeyBonding (κ : Type) where
  Press : κ → Option String × κ
  Release : κ → Option String × κ

/-- The result of running a piece of the program: the effects performed, the globals and the
device state afterwards, and how it ended. -/
structure Run (κ α : Type) where
  trace : List Effect
  globals : Globals
  dev : κ
  out : Outcome α

/-- A call of `logger.Info`, `logger.Infof` or `logger.Errorf`: a nil logger panics. -/
def logCall (logger : Option Logger) (level msg : String) : List Effect × Outcome Unit :=
  match logger with
  | none => ([], .panic)
  | some _ => ([.log level msg], .ok ())

/-- A call of `logger.Fatalf`: it never returns.  zap writes the entry and exits with status 1;
a nil logger panics. -/
def Fatalf {α : Type} (logger : Option Logger) (msg : String) : List Effect × Outcome α :=
  match logger with
  | none => ([], .panic)
  | some _ => ([.log "fatal" msg], .exit 1)

/-! ## `main.go` -/

/-- The loop of `inActiveTime` over `config.TimeRanges`.  Parse errors are discarded
(`start, _ := time.Parse(...)`), so a failed parse contributes the zero time; reading
`tr.Start` through a nil entry panics. -/
def inActiveTimeLoop (now : Time) : List (Option TimeRange) → Outcome Bool
  | [] => .ok false
  | none :: _ => .panic
  | some tr :: rest =>
    let start := (Parse1504 tr.Start).1
    let stop := (Parse1504 tr.End).1
    let startTime :=
      Date now.Year now.Month now.Day start.Hour start.Minute 0 0 now.Location
    let endTime :=
      Date now.Year now.Month now.Day stop.Hour stop.Minute 0 0 now.Location
    if now.After startTime && now.Before endTime then .ok true
    else inActiveTimeLoop now rest

/-- Go `inActiveTime`, with `time.Now()` passed in as `now` and the global `config` read from
`g`. -/
def inActiveTime (now : Time) (g : Globals) : Outcome Bool :=
  inActiveTimeLoop now g.config.TimeRanges

/-- Go `simulateDoubleCapsLock`: press, 10ms, release, 10ms, press, 100ms, release, returning
at the first error.  The result is the effects performed, the device state and the error. -/
def simulateDoubleCapsLock {κ : Type} (kb : KeyBonding κ) (k : κ) :
    List Effect × κ × Option String :=
  let tr : List Effect := []
  let (err, k) := kb.Press k
  let tr := tr ++ [.press]
  if err.isSome then (tr, k, err)
  else
    let tr := tr ++ [.sleep 10]
    let (err, k) := kb.Release k
    let tr := tr ++ [.release]
    if err.isSome then (tr, k, err)
    else
      let tr := tr ++ [.sleep 10]
      let (err, k) := kb.Press k
      let tr := tr ++ [.press]
      if err.isSome then (tr, k, err)
      else
        let tr := tr ++ [.sleep 100]
        let (err, k) := kb.Release k
        let tr := tr ++ [.release]
        (tr, k, err)

/-- Go `loadConfig`: read `config.yaml`, decode it into a fresh `Config` and store it in the
global `config`; a read error or a decode error goes to `logger.Fatalf`. -/
def loadConfig {κ : Type} (w : World) (g : Globals) (k : κ) : Run κ Unit :=
  match w.ReadFile "config.yaml" with
  | .error err =>
    let (tr, out) := Fatalf g.logger ("读取配置失败: " ++ err)
    ⟨[.call .loadConfig] ++ tr, g, k, out⟩
  | .ok data =>
    match w.Unmarshal data with
    | .error err =>
      let (tr, out) := Fatalf g.logger ("解析配置失败: " ++ err)
      ⟨[.call .loadConfig] ++ tr, g, k, out⟩
    | .ok newConfig =>
      ⟨[.call .loadConfig], { g with config := newConfig }, k, .ok ()⟩

/-- The level constant `zapcore.InfoLevel`. -/
def InfoLevel : Int := 0

/-- Go `initLogger`: build the logger from `config.Log`, with the defaults
`keysimulator.log` and `info`, and level `info` when the level text is not recognised. -/
def initLogger {κ : Type} (w : World) (g : Globals) (k : κ) : Run κ Unit :=
  let logCfg := g.config.Log
  let logCfg := if logCfg.Name == "" then { logCfg with Name := "keysimulator.log" } else logCfg
  let logCfg := if logCfg.Level == "" then { logCfg with Level := "info" } else logCfg
  let lvl := match w.UnmarshalText logCfg.Level with
    | some l => l
    | none => InfoLevel
  ⟨[.call .initLogger], { g with logger := some ⟨logCfg.Name, lvl⟩ }, k, .ok ()⟩

/-- Go `filepath.Base` on a Unix path: the last element, after removing trailing slashes. -/
def Base (path : String) : String :=
  if path == "" then "."
  else
    let p := (path.toList.reverse.dropWhile (· == '/')).reverse
    let p := (p.reverse.takeWhile (· != '/')).reverse
    if p == [] then "/" else String.mk p

/-- An `fsnotify.Event`: the path and the operation bits. -/
structure Event where
  Name : String
  Op : Nat
  deriving DecidableEq

/-- The bit `fsnotify.Create`. -/
def Create : Nat := 1
/-- The bit `fsnotify.Write`. -/
def Write : Nat := 2
/-- The bit `fsnotify.Remove`. -/
def Remove : Nat := 4
/-- The bit `fsnotify.Rename`. -/
def Rename : Nat := 8
/-- The bit `fsnotify.Chmod`. -/
def Chmod : Nat := 16

/-- The condition of the `if` in `watchConfig`. -/
def isConfigChange (event : Event) : Bool :=
  Base event.Name == Base configPath &&
    (event.Op &&& Write == Write || event.Op &&& Create == Create)

/-- The `case event := <-watcher.Events` branch of the loop in `watchConfig`: one event is
handled.  `onReload` is the callback; it returns the globals it leaves and its effects. -/
def watchEvent {κ : Type} (w : World) (onReload : Globals → Globals × List Effect)
    (event : Event) (g : Globals) (k : κ) : Run κ Unit :=
  if isConfigChange event then
    match logCall g.logger "info" "检测到配置文件变更，重新加载配置" with
    | (tr0, .ok ()) =>
      let r1 : Run κ Unit := loadConfig w g k
      match r1.out with
      | .ok () =>
        let r2 : Run κ Unit := initLogger w r1.globals r1.dev
        match r2.out with
        | .ok () =>
          let (g3, tr3) := onReload r2.globals
          ⟨tr0 ++ r1.trace ++ r2.trace ++ [.call .onReload] ++ tr3, g3, r2.dev, .ok ()⟩
        | out => ⟨tr0 ++ r1.trace ++ r2.trace, r2.globals, r2.dev, out⟩
      | out => ⟨tr0 ++ r1.trace, r1.globals, r1.dev, out⟩
    | (tr0, out) => ⟨tr0, g, k, out⟩
  else ⟨[], g, k, .ok ()⟩

/-- The `case err := <-watcher.Errors` branch of the loop in `watchConfig`. -/
def watchError {κ : Type} (err : String) (g : Globals) (k : κ) : Run κ Unit :=
  let (tr, out) := logCall g.logger "error" ("配置监听错误: " ++ err)
  ⟨tr, g, k, out⟩

/-- Whether the `for`/`select` loop of `main` goes on or has returned. -/
inductive Loop where
  | running
  | stopped
  deriving DecidableEq

/-- The `case <-ticker.C` branch of the loop in `main`: one tick is handled at time `now`. -/
def mainTick {κ : Type} (kb : KeyBonding κ) (now : Time) (g : Globals) (k : κ) : Run κ Loop :=
  match inActiveTime now g with
  | .ok true =>
    match logCall g.logger "info" "模拟双击 Caps Lock" with
    | (tr0, .ok ()) =>
      let (tr1, k1, err) := simulateDoubleCapsLock kb k
      let tr := tr0 ++ [.call .simulateDoubleCapsLock] ++ tr1
      match err with
      | some e =>
        match logCall g.logger "error" ("按键失败: " ++ e) with
        | (tr2, .ok ()) => ⟨tr ++ tr2, g, k1, .ok .running⟩
        | (tr2, .panic) => ⟨tr ++ tr2, g, k1, .panic⟩
        | (tr2, .exit c) => ⟨tr ++ tr2, g, k1, .exit c⟩
      | none => ⟨tr, g, k1, .ok .running⟩
    | (tr0, .panic) => ⟨tr0, g, k, .panic⟩
    | (tr0, .exit c) => ⟨tr0, g, k, .exit c⟩
  | .ok false => ⟨[], g, k, .ok .running⟩
  | .panic => ⟨[], g, k, .panic⟩
  | .exit c => ⟨[], g, k, .exit c⟩

/-- The `case sig := <-sigChan` branch of the loop in `main`: log and return. -/
def mainSignal {κ : Type} (sig : String) (g : Globals) (k : κ) : Run κ Loop :=
  match logCall g.logger "info" ("收到退出信号: " ++ sig ++ "，程序退出") with
  | (tr, .ok ()) => ⟨tr, g, k, .ok .stopped⟩
  | (tr, .panic) => ⟨tr, g, k, .panic⟩
  | (tr, .exit c) => ⟨tr, g, k, .exit c⟩

/-- Wrap an integer to the 64-bit signed range of Go `int64`. -/
def wrapInt64 (x : Int) : Int := (x + 2 ^ 63) % 2 ^ 64 - 2 ^ 63

/-- The argument of `time.NewTicker` in `main`:
`time.Duration(config.Ticker) * time.Second`, in nanoseconds. -/
def tickerPeriod (g : Globals) : Int := wrapInt64 (g.config.Ticker * 1000000000)

/-- Go `time.NewTicker(d)`: it panics unless `d` is positive; otherwise the ticker has period
`d`. -/
def NewTicker (d : Int) : Outcome Int :=
  if d ≤ 0 then .panic else .ok d

/-- Go `daemonize`: a child (`DAEMONIZED=1`) returns; otherwise the process starts itself
again in the background and exits, with status 1 when that fails and 0 when it works. -/
def daemonize (w : World) : Outcome Unit :=
  if w.Getenv "DAEMONIZED" == "1" then .ok ()
  else
    match w.StartChild with
    | some _ => .exit 1
    | none => .exit 0

/-- The straight-line start of `main`, up to the creation of the ticker: `loadConfig`,
`daemonize` when `config.Daemon`, `initLogger`, the key device, `time.NewTicker`.  The result
is the period of the ticker.  (The watcher goroutine started in between is left out.) -/
def mainStart {κ : Type} (w : World) (g : Globals) (k : κ) : Run κ Int :=
  let r1 : Run κ Unit := loadConfig w g k
  match r1.out with
  | .ok () =>
    match (if r1.globals.config.Daemon then daemonize w else .ok ()) with
    | .ok () =>
      let r2 : Run κ Unit := initLogger w r1.globals r1.dev
      match logCall r2.globals.logger "info" "CapsAutoTrigger 启动中..." with
      | (tr3, .ok ()) =>
        match w.NewKeyBonding with
        | some err =>
          let (tr4, out) := Fatalf r2.globals.logger ("键盘模拟器初始化失败: " ++ err)
          ⟨r1.trace ++ r2.trace ++ tr3 ++ tr4, r2.globals, r2.dev, out⟩
        | none =>
          ⟨r1.trace ++ r2.trace ++ tr3, r2.globals, r2.dev, NewTicker (tickerPeriod r2.globals)⟩
      | (tr3, .panic) => ⟨r1.trace ++ r2.trace ++ tr3, r2.globals, r2.dev, .panic⟩
      | (tr3, .exit c) => ⟨r1.trace ++ r2.trace ++ tr3, r2.globals, r2.dev, .exit c⟩
    | .panic => ⟨r1.trace, r1.globals, r1.dev, .panic⟩
    | .exit c => ⟨r1.trace, r1.globals, r1.dev, .exit c⟩
  | .panic => ⟨r1.trace, r1.globals, r1.dev, .panic⟩
  | .exit c => ⟨r1.trace, r1.globals, r1.dev, .exit c⟩

/-! ## Vocabulary of the specification -/

/-- The hour and minute a string denotes when `time.Parse("15:04", s)` accepts it; `none` when
`time.Parse` reports an error. -/
def clockOf (s : String) : Option (Int × Int) :=
  match Parse1504 s with
  | (t, none) => some (t.Hour, t.Minute)
  | (_, some _) => none

/-- The instant `a` is strictly earlier than the instant `b`. -/
def Time.lt (a b : Time) : Prop :=
  a.sec < b.sec ∨ (a.sec = b.sec ∧ a.nsec < b.nsec)

instance Time.decidableLt (a b : Time) : Decidable (a.lt b) := by
  unfold Time.lt
  exact inferInstance

/-- Seconds elapsed since midnight on the wall clock of the location of `now`. -/
def secondsOfDay (now : Time) : Int := now.abs % secondsPerDay

/-- Today's date at `h:m:00` in the zone of `now`: the instant that `time.Date` gives for the
year, month and day of `now`, the hour `h`, the minute `m`, zero seconds and the location of
`now`. -/
def todayAt (now : Time) (h m : Int) : Time :=
  Date now.Year now.Month now.Day h m 0 0 now.Location

/-- The instant `h` hours and `m` minutes after the midnight that began the calendar day of
`now`, counted with the zone offset in force at `now`. -/
def wallToday (now : Time) (h m : Int) : Time :=
  ⟨now.sec - secondsOfDay now + (h * 3600 + m * 60), 0, now.loc⟩

/-- The transitions come in increasing order of time, none before `start`. -/
def increasingFrom (start : Int) : List ZoneTrans → Bool
  | [] => true
  | t :: rest => decide (start ≤ t.when) && increasingFrom t.when rest

/-- Today's 00:00:00 on the wall clock of `now`, read as if it were Unix time. -/
def dayStart (now : Time) : Int := now.abs - secondsOfDay now - unixToInternal

/-- No zone transition on or next to today's date: the zone offset in force at `now` is in
force from today's 00:00:00 to today's 24:00:00, both where these 24 hours lie on the time
line and where they would lie if the wall clock were UTC (the place where `time.Date` first
looks the offset up).  In a location without transitions every day is steady, as far as
64-bit Unix time reaches. -/
def steadyToday (now : Time) : Bool :=
  increasingFrom alpha now.loc.tx &&
    decide ((now.loc.lookup now.unixSec).2.1 ≤ dayStart now) &&
    decide ((now.loc.lookup now.unixSec).2.1 ≤
      dayStart now - (now.loc.lookup now.unixSec).1) &&
    decide (dayStart now + secondsPerDay ≤ (now.loc.lookup now.unixSec).2.2) &&
    decide (dayStart now - (now.loc.lookup now.unixSec).1 + secondsPerDay ≤
      (now.loc.lookup now.unixSec).2.2)

/-- The globals with the list of time ranges replaced. -/
def withRanges (g : Globals) (ranges : List (Option TimeRange)) : Globals :=
  { g with config := { g.config with TimeRanges := ranges } }

/-- The fixed sequence of a double press. -/
def doublePress : List Effect :=
  [.press, .sleep 10, .release, .sleep 10, .press, .sleep 100, .release]

/-- The errors of the four key operations as the device would deliver them one after the
other: press, release, press, release. -/
def keyResults {κ : Type} (kb : KeyBonding κ) (k : κ) : List (Option String) :=
  let r1 := kb.Press k
  let r2 := kb.Release r1.2
  let r3 := kb.Press r2.2
  let r4 := kb.Release r3.2
  [r1.1, r2.1, r3.1, r4.1]

/-- The number of operations that succeed before the first failure. -/
def successesBefore : List (Option String) → Nat
  | [] => 0
  | some _ :: _ => 0
  | none :: rest => successesBefore rest + 1

/-- The error of the first failing operation, if any. -/
def firstError : List (Option String) → Option String
  | [] => none
  | some e :: _ => some e
  | none :: rest => firstError rest

/-- Total time slept, in milliseconds. -/
def sleepTotal : List Effect → Nat
  | [] => 0
  | .sleep ms :: rest => ms + sleepTotal rest
  | _ :: rest => sleepTotal rest

/-- The function calls recorded in a trace, in order. -/
def calls : List Effect → List Fn
  | [] => []
  | .call f :: rest => f :: calls rest
  | _ :: rest => calls rest

/-- The key operations (press, release) recorded in a trace, in order. -/
def keyOps : List Effect → List Effect
  | [] => []
  | .press :: rest => .press :: keyOps rest
  | .release :: rest => .release :: keyOps rest
  | _ :: rest => keyOps rest

/-- The configuration a run of `loadConfig` decodes from the file: `none` when `config.yaml`
cannot be read or its content does not decode. -/
def decodedConfig (w : World) : Option Config :=
  match w.ReadFile "config.yaml" with
  | .error _ => none
  | .ok data =>
    match w.Unmarshal data with
    | .error _ => none
    | .ok cfg => some cfg

/-! ## Concrete values used in the examples -/

/-- The zone eight hours east of UTC, without transitions. -/
def eastEight : Location := ⟨28800, []⟩

/-- America/New_York around 2024: Eastern Standard Time (UTC-5) until 2024-03-10 07:00 UTC,
Eastern Daylight Time (UTC-4) until 2024-11-03 06:00 UTC, then Eastern Standard Time. -/
def newYork : Location := ⟨-18000, [⟨1710054000, -14400⟩, ⟨1730613600, -18000⟩]⟩

/-- The instant 2024-03-10 06:30:00 UTC, which is 01:30 EST in New York, half an hour before
the clocks go forward from 02:00 to 03:00. -/
def springForwardNight : Time := ⟨1710052200 + unixToInternal, 0, newYork⟩

/-- The instant 2024-11-03 06:15:00 UTC, which is 01:15 EST in New York, a quarter of an hour
after the clocks went back from 02:00 EDT to 01:00 EST. -/
def fallBackNight : Time := ⟨1730614500 + unixToInternal, 0, newYork⟩

/-- The instant 2024-07-04 16:00:00 UTC, which is 12:00 EDT in New York. -/
def summerNoon : Time := ⟨1720108800 + unixToInternal, 0, newYork⟩

/-- The instant 2024-03-15 12:00:00 +08:00. -/
def noonExample : Time := ⟨63846072000, 0, eastEight⟩

/-- The instant 2024-03-15 20:00:00 +08:00. -/
def eveningExample : Time := ⟨63846100800, 0, eastEight⟩

/-- The instant 2024-03-15 09:00:00 +08:00. -/
def nineExample : Time := ⟨63846061200, 0, eastEight⟩

/-- A logger as `initLogger` builds it from an empty `log` section. -/
def defaultLogger : Logger := ⟨"keysimulator.log", InfoLevel⟩

/-- Globals after a start with `ticker: 1` and `time_ranges: [{start: "09:00", end: "17:00"}]`. -/
def officeHours : Globals :=
  ⟨some defaultLogger, ⟨⟨"", ""⟩, 1, [some ⟨"09:00", "17:00"⟩], false⟩⟩

/-- A key device on which every operation succeeds; the state counts the operations. -/
def workingKeys : KeyBonding Nat :=
  ⟨fun n => (none, n + 1), fun n => (none, n + 1)⟩

/-- A key device on which every operation fails. -/
def failingKeys : KeyBonding Nat :=
  ⟨fun n => (some "device error", n + 1), fun n => (some "device error", n + 1)⟩

/-- A key device that follows a script: the `n`-th key operation returns the `n`-th entry of
the script (success once the script is used up); the state counts the operations. -/
def scriptedKeys (script : List (Option String)) : KeyBonding Nat :=
  ⟨fun n => (script.getD n none, n + 1), fun n => (script.getD n none, n + 1)⟩

/-- A world in which `config.yaml` cannot be read. -/
def unreadableWorld : World :=
  { ReadFile := fun _ => .error "open config.yaml: no such file or directory"
    Unmarshal := fun _ => .ok zeroConfig
    UnmarshalText := fun _ => none
    Getenv := fun _ => ""
    StartChild := none
    NewKeyBonding := none }

/-- A world in which `config.yaml` is readable but its content does not decode. -/
def malformedWorld : World :=
  { ReadFile := fun _ => .ok []
    Unmarshal := fun _ => .error "yaml: unmarshal errors"
    UnmarshalText := fun _ => none
    Getenv := fun _ => ""
    StartChild := none
    NewKeyBonding := none }

/-- A world in which `config.yaml` has no `ticker` key, so that the decoded `Config` keeps the
zero value in `Ticker`. -/
def noTickerWorld : World :=
  { ReadFile := fun _ => .ok []
    Unmarshal := fun _ => .ok zeroConfig
    UnmarshalText := fun _ => none
    Getenv := fun _ => ""
    StartChild := none
    NewKeyBonding := none }

/-- A world in which `config.yaml` decodes to `ticker: 5` and one range `08:00`-`12:00`. -/
def fiveSecondWorld : World :=
  { ReadFile := fun _ => .ok []
    Unmarshal := fun _ => .ok ⟨⟨"", ""⟩, 5, [some ⟨"08:00", "12:00"⟩], false⟩
    UnmarshalText := fun _ => none
    Getenv := fun _ => ""
    StartChild := none
    NewKeyBonding := none }

/-- The callback that `main` passes to `watchConfig`: it logs one line. -/
def logReload (g : Globals) : Globals × List Effect :=
  (g, (logCall g.logger "info" "配置已重新加载").1)

/-- A write to the configuration file as the watcher sees it. -/
def writeEvent : Event := ⟨"./config.yaml", Write⟩

/-! ## The calendar: `Date` undoes `Year`, `Month`, `Day` -/

theorem norm_id (hi lo base : Int) (h0 : 0 ≤ lo) (h1 : lo < base) :
    norm hi lo base = (hi, lo) := by
  unfold norm
  rw [if_neg (by omega)]
  simp only
  rw [if_neg (by omega)]

/-- `time.Date` on arguments that need no carrying: the wall clock is put together from the
day number and the time of day, and handed to the zone adjustment. -/
theorem Date_inRange (year month day hour min sec nsec : Int) (loc : Location)
    (hm1 : 1 ≤ month) (hm2 : month ≤ 12) (hh0 : 0 ≤ hour) (hh1 : hour < 24)
    (hn0 : 0 ≤ min) (hn1 : min < 60) (hs0 : 0 ≤ sec) (hs1 : sec < 60)
    (hx0 : 0 ≤ nsec) (hx1 : nsec < 1000000000) :
    Date year month day hour min sec nsec loc =
      ⟨zoneAdjust loc ((daysSinceEpoch year + daysBeforeAt (month - 1) +
          (if isLeap year && decide (month ≥ 3) then 1 else 0) + (day - 1)) * 86400 +
          (hour * 3600 + min * 60 + sec) - unixToInternal) + unixToInternal, nsec, loc⟩ := by
  have e1 := norm_id year (month - 1) 12 (by omega) (by omega)
  have e2 := norm_id sec nsec 1000000000 hx0 hx1
  have e3 := norm_id min sec 60 hs0 hs1
  have e4 := norm_id hour min 60 hn0 hn1
  have e5 := norm_id day hour 24 hh0 hh1
  unfold Date
  simp only [e1, e2, e3, e4, e5, sub_add_cancel, secondsPerDay, secondsPerHour,
    secondsPerMinute]
  congr 3
  split <;> omega

theorem isLeap_iff (y : Int) :
    isLeap y = true ↔ (y % 4 = 0 ∧ (y % 100 ≠ 0 ∨ y % 400 = 0)) := by
  simp [isLeap]

/-- The cycle decomposition computed by `absYear`. -/
theorem absYear_decomp (D : Int) :
    ∃ a c q n yd : Int, 0 ≤ c ∧ c ≤ 3 ∧ 0 ≤ q ∧ q ≤ 24 ∧ 0 ≤ n ∧ n ≤ 3 ∧ 0 ≤ yd ∧ yd ≤ 365 ∧
      (n < 3 → yd < 365) ∧ (c < 3 → q = 24 → n = 3 → yd < 365) ∧
      absYear D = (400 * a + 100 * c + 4 * q + n + 1, yd) ∧
      D = 146097 * a + 36524 * c + 1461 * q + 365 * n + yd := by
  refine ⟨D / 146097, _, _, _, _, ?_, ?_, ?_, ?_, ?_, ?_, ?_, ?_, ?_, ?_, rfl, ?_⟩ <;>
    simp only [daysPer400Years, daysPer100Years, daysPer4Years] <;> norm_num <;> omega

theorem daysSinceEpoch_decomp (a c q n : Int) (hc0 : 0 ≤ c) (hc : c ≤ 3) (hq0 : 0 ≤ q)
    (hq : q ≤ 24) (hn0 : 0 ≤ n) (hn : n ≤ 3) :
    daysSinceEpoch (400 * a + 100 * c + 4 * q + n + 1) =
      146097 * a + 36524 * c + 1461 * q + 365 * n := by
  simp only [daysSinceEpoch, daysPer400Years, daysPer100Years, daysPer4Years]
  norm_num
  omega

theorem isLeap_decomp (a c q n : Int) (hc0 : 0 ≤ c) (hc : c ≤ 3) (hq0 : 0 ≤ q)
    (hq : q ≤ 24) (hn0 : 0 ≤ n) (hn : n ≤ 3) :
    isLeap (400 * a + 100 * c + 4 * q + n + 1) = true ↔ (n = 3 ∧ (q < 24 ∨ c = 3)) := by
  rw [isLeap_iff]
  omega

/-- The year and the day of the year found by `absYear` add up to the day number, and the
day of the year lies within the year. -/
theorem absYear_spec (D : Int) :
    daysSinceEpoch (absYear D).1 + (absYear D).2 = D ∧ 0 ≤ (absYear D).2 ∧
      (absYear D).2 < 365 + (if isLeap (absYear D).1 then 1 else 0) := by
  obtain ⟨a, c, q, n, yd, hc0, hc, hq0, hq, hn0, hn, hy0, hy, h1, h2, he, hD⟩ := absYear_decomp D
  rw [he]
  simp only
  rw [daysSinceEpoch_decomp a c q n hc0 hc hq0 hq hn0 hn]
  refine ⟨by omega, hy0, ?_⟩
  have hl := isLeap_decomp a c q n hc0 hc hq0 hq hn0 hn
  by_cases h : isLeap (400 * a + 100 * c + 4 * q + n + 1) = true
  · rw [if_pos h]; omega
  · rw [if_neg h]
    rw [hl] at h
    omega

theorem daysBeforeAt_vals :
    daysBeforeAt 0 = 0 ∧ daysBeforeAt 1 = 31 ∧ daysBeforeAt 2 = 59 ∧ daysBeforeAt 3 = 90 ∧
    daysBeforeAt 4 = 120 ∧ daysBeforeAt 5 = 151 ∧ daysBeforeAt 6 = 181 ∧ daysBeforeAt 7 = 212 ∧
    daysBeforeAt 8 = 243 ∧ daysBeforeAt 9 = 273 ∧ daysBeforeAt 10 = 304 ∧ daysBeforeAt 11 = 334 ∧
    daysBeforeAt 12 = 365 := by
  decide

theorem monthDayCore_spec (day : Int) (h0 : 0 ≤ day) (h1 : day < 365) :
    1 ≤ (monthDayCore day).1 ∧ (monthDayCore day).1 ≤ 12 ∧ 1 ≤ (monthDayCore day).2 ∧
      (monthDayCore day).2 ≤ 31 ∧
      daysBeforeAt ((monthDayCore day).1 - 1) + (monthDayCore day).2 - 1 = day ∧
      ((monthDayCore day).1 ≤ 2 ↔ day < 59) := by
  obtain ⟨v0, v1, v2, v3, v4, v5, v6, v7, v8, v9, v10, v11, v12⟩ := daysBeforeAt_vals
  have hk : ∃ k : Int, day / 31 = k ∧ 0 ≤ k ∧ k < 12 := ⟨day / 31, rfl, by omega, by omega⟩
  obtain ⟨k, hk, hk0, hk1⟩ := hk
  unfold monthDayCore
  simp only
  rw [hk]
  interval_cases k <;> norm_num only [v0, v1, v2, v3, v4, v5, v6, v7, v8, v9, v10, v11, v12] <;>
    split <;> norm_num only [v0, v1, v2, v3, v4, v5, v6, v7, v8, v9, v10, v11, v12] <;>
    simp only [true_and, true_iff, false_iff] <;> omega

/-- The month and day found by `absMonthDay` are a valid date that leads back to the day of
the year. -/
theorem absMonthDay_spec (leap : Bool) (yday : Int) (h0 : 0 ≤ yday)
    (h1 : yday < 365 + (if leap then 1 else 0)) :
    1 ≤ (absMonthDay leap yday).1 ∧ (absMonthDay leap yday).1 ≤ 12 ∧
    1 ≤ (absMonthDay leap yday).2 ∧ (absMonthDay leap yday).2 ≤ 31 ∧
    daysBeforeAt ((absMonthDay leap yday).1 - 1) +
      (if leap && decide ((absMonthDay leap yday).1 ≥ 3) then 1 else 0) +
      ((absMonthDay leap yday).2 - 1) = yday := by
  obtain ⟨v0, v1, v2, v3, v4, v5, v6, v7, v8, v9, v10, v11, v12⟩ := daysBeforeAt_vals
  unfold absMonthDay
  cases leap
  · simp only [Bool.false_and, Bool.false_eq_true, if_false] at h1 ⊢
    obtain ⟨hm1, hm2, hd1, hd2, hs, _⟩ := monthDayCore_spec yday h0 (by simpa using h1)
    omega
  · simp only [Bool.true_and, if_true] at h1 ⊢
    by_cases h59 : yday = 59
    · subst h59; simp [v1]
    · have hne : (yday == 31 + 29 - 1) = false := by simpa using h59
      rw [hne]
      simp only [Bool.false_eq_true, if_false, decide_eq_true_eq]
      by_cases hgt : yday > 31 + 29 - 1
      · rw [if_pos hgt]
        obtain ⟨hm1, hm2, hd1, hd2, hs, hlt⟩ :=
          monthDayCore_spec (yday - 1) (by omega) (by omega)
        have : 3 ≤ (monthDayCore (yday - 1)).1 := by omega
        rw [if_pos this]; omega
      · rw [if_neg hgt]
        obtain ⟨hm1, hm2, hd1, hd2, hs, hlt⟩ :=
          monthDayCore_spec yday (by omega) (by omega)
        have : ¬ 3 ≤ (monthDayCore yday).1 := by omega
        rw [if_neg this]; omega

/-! ## Zone lookups -/

theorem lookupFrom_start_ge (offset start : Int) (tx : List ZoneTrans) (sec : Int)
    (hinc : increasingFrom start tx = true) :
    start ≤ (lookupFrom offset start tx sec).2.1 := by
  induction tx generalizing offset start with
  | nil => simp [lookupFrom]
  | cons t rest ih =>
    simp only [increasingFrom, Bool.and_eq_true, decide_eq_true_eq] at hinc
    unfold lookupFrom
    split
    · simp
    · exact le_trans hinc.1 (ih t.offset t.when hinc.2)

/-- Within the period that `lookup` reports, `lookup` gives the same answer. -/
theorem lookupFrom_stable (offset start : Int) (tx : List ZoneTrans) (x y : Int)
    (hinc : increasingFrom start tx = true)
    (h1 : (lookupFrom offset start tx x).2.1 ≤ y)
    (h2 : y < (lookupFrom offset start tx x).2.2) :
    lookupFrom offset start tx y = lookupFrom offset start tx x := by
  induction tx generalizing offset start with
  | nil => simp [lookupFrom]
  | cons t rest ih =>
    simp only [increasingFrom, Bool.and_eq_true, decide_eq_true_eq] at hinc
    unfold lookupFrom at h1 h2 ⊢
    by_cases hx : x < t.when
    · rw [if_pos hx] at h1 h2 ⊢
      simp only at h2
      rw [if_pos h2]
    · rw [if_neg hx] at h1 h2 ⊢
      have hge := lookupFrom_start_ge t.offset t.when rest x hinc.2
      have hy : ¬ y < t.when := by omega
      rw [if_neg hy]
      exact ih t.offset t.when hinc.2 h1 h2

theorem lookup_stable (l : Location) (x y : Int) (hinc : increasingFrom alpha l.tx = true)
    (h1 : (l.lookup x).2.1 ≤ y) (h2 : y < (l.lookup x).2.2) :
    l.lookup y = l.lookup x :=
  lookupFrom_stable l.offset alpha l.tx x y hinc h1 h2

/-- The zone adjustment of `time.Date` subtracts the offset of a period when the wall clock,
read as UTC, and the instant it leads to both lie in that period. -/
theorem zoneAdjust_steady (l : Location) (x u : Int) (hinc : increasingFrom alpha l.tx = true)
    (h1 : (l.lookup x).2.1 ≤ u) (h2 : u < (l.lookup x).2.2)
    (h3 : (l.lookup x).2.1 ≤ u - (l.lookup x).1) (h4 : u - (l.lookup x).1 < (l.lookup x).2.2) :
    zoneAdjust l u = u - (l.lookup x).1 := by
  have hs := lookup_stable l x u hinc h1 h2
  unfold zoneAdjust
  rw [hs]
  rcases hp : l.lookup x with ⟨o, s, e⟩
  rw [hp] at h3 h4
  simp only at h3 h4 ⊢
  by_cases ho : o = 0
  · subst ho; simp
  · have : (o != 0) = true := by simpa using ho
    rw [if_pos this]
    have hc : (decide (u - o < s) || decide (u - o ≥ e)) = false := by
      simp only [Bool.or_eq_false_iff, decide_eq_false_iff_not]
      omega
    rw [hc]
    simp

theorem abs_eq (t : Time) : t.abs = t.sec + (t.loc.lookup t.unixSec).1 := by
  unfold Time.abs Time.unixSec
  simp only
  omega


theorem steadyToday_iff (now : Time) :
    steadyToday now = true ↔
      increasingFrom alpha now.loc.tx = true ∧
      (now.loc.lookup now.unixSec).2.1 ≤ dayStart now ∧
      (now.loc.lookup now.unixSec).2.1 ≤ dayStart now - (now.loc.lookup now.unixSec).1 ∧
      dayStart now + 86400 ≤ (now.loc.lookup now.unixSec).2.2 ∧
      dayStart now - (now.loc.lookup now.unixSec).1 + 86400 ≤
        (now.loc.lookup now.unixSec).2.2 := by
  unfold steadyToday secondsPerDay secondsPerHour secondsPerMinute
  simp only [Bool.and_eq_true, decide_eq_true_eq]
  constructor
  · rintro ⟨⟨⟨⟨a, b⟩, c⟩, d⟩, e⟩
    exact ⟨a, b, c, by omega, by omega⟩
  · rintro ⟨a, b, c, d, e⟩
    exact ⟨⟨⟨⟨a, b⟩, c⟩, by omega⟩, by omega⟩

/-- In a location without transitions a day is steady when it lies within 64-bit Unix
time. -/
theorem steadyToday_of_no_transitions (now : Time) (htx : now.loc.tx = [])
    (h1 : alpha ≤ dayStart now) (h2 : alpha ≤ dayStart now - now.loc.offset)
    (h3 : dayStart now + 86400 ≤ omega) (h4 : dayStart now - now.loc.offset + 86400 ≤ omega) :
    steadyToday now = true := by
  rw [steadyToday_iff]
  have hl : now.loc.lookup now.unixSec = (now.loc.offset, alpha, omega) := by
    unfold Location.lookup
    rw [htx]
    rfl
  rw [hl, htx]
  exact ⟨rfl, h1, h2, h3, h4⟩

/-- Whatever the zone, `time.Date` on the date of `now` with an hour and a minute is the zone
adjustment of today's midnight on the wall clock plus that hour and minute. -/
theorem todayAt_eq (now : Time) (h m : Int) (hh0 : 0 ≤ h) (hh1 : h < 24) (hm0 : 0 ≤ m)
    (hm1 : m < 60) :
    todayAt now h m =
      ⟨zoneAdjust now.loc (dayStart now + (h * 3600 + m * 60)) + unixToInternal, 0, now.loc⟩ := by
  have hy := absYear_spec (now.abs / secondsPerDay)
  obtain ⟨hy1, hy2, hy3⟩ := hy
  have hmd := absMonthDay_spec (isLeap (absYear (now.abs / secondsPerDay)).1)
    (absYear (now.abs / secondsPerDay)).2 hy2 hy3
  obtain ⟨a1, a2, a3, a4, a5⟩ := hmd
  have hY : now.Year = (absYear (now.abs / secondsPerDay)).1 := rfl
  have hM : now.Month = (absMonthDay (isLeap (absYear (now.abs / secondsPerDay)).1)
    (absYear (now.abs / secondsPerDay)).2).1 := rfl
  have hD : now.Day = (absMonthDay (isLeap (absYear (now.abs / secondsPerDay)).1)
    (absYear (now.abs / secondsPerDay)).2).2 := rfl
  unfold todayAt
  rw [Date_inRange now.Year now.Month now.Day h m 0 0 now.Location (by rw [hM]; exact a1)
    (by rw [hM]; exact a2) hh0 hh1 hm0 hm1 (by omega) (by omega) (by omega) (by omega)]
  unfold Time.Location
  congr 3
  rw [hY, hM, hD]
  have e : daysSinceEpoch (absYear (now.abs / secondsPerDay)).1 +
      daysBeforeAt ((absMonthDay (isLeap (absYear (now.abs / secondsPerDay)).1)
        (absYear (now.abs / secondsPerDay)).2).1 - 1) +
      (if (isLeap (absYear (now.abs / secondsPerDay)).1 &&
        decide ((absMonthDay (isLeap (absYear (now.abs / secondsPerDay)).1)
          (absYear (now.abs / secondsPerDay)).2).1 ≥ 3)) = true then 1 else 0) +
      ((absMonthDay (isLeap (absYear (now.abs / secondsPerDay)).1)
        (absYear (now.abs / secondsPerDay)).2).2 - 1) = now.abs / secondsPerDay := by
    omega
  rw [e]
  unfold dayStart secondsOfDay secondsPerDay secondsPerHour secondsPerMinute
  omega

/-- On a steady day `time.Date` on today's date is the instant `h` hours and `m` minutes
after today's midnight. -/
theorem todayAt_steady (now : Time) (h m : Int) (hsteady : steadyToday now = true)
    (hh0 : 0 ≤ h) (hh1 : h < 24) (hm0 : 0 ≤ m) (hm1 : m < 60) :
    todayAt now h m = wallToday now h m := by
  obtain ⟨hinc, s1, s2, s3, s4⟩ := (steadyToday_iff now).1 hsteady
  rw [todayAt_eq now h m hh0 hh1 hm0 hm1]
  rw [zoneAdjust_steady now.loc now.unixSec _ hinc (by omega) (by omega) (by omega) (by omega)]
  unfold wallToday
  congr 1
  have ha := abs_eq now
  unfold dayStart
  omega

/-- On a steady day the instant `wallToday now h m` lies on the calendar day of `now`, in its
zone, and its wall clock reads `h:m`. -/
theorem wallToday_clock (now : Time) (h m : Int) (hsteady : steadyToday now = true)
    (hh0 : 0 ≤ h) (hh1 : h < 24) (hm0 : 0 ≤ m) (hm1 : m < 60) :
    (wallToday now h m).Year = now.Year ∧ (wallToday now h m).Month = now.Month ∧
      (wallToday now h m).Day = now.Day ∧ (wallToday now h m).Hour = h ∧
      (wallToday now h m).Minute = m ∧ (wallToday now h m).Location = now.Location := by
  obtain ⟨hinc, s1, s2, s3, s4⟩ := (steadyToday_iff now).1 hsteady
  have ha := abs_eq now
  have hsod : secondsOfDay now = now.abs % 86400 := rfl
  have hds : dayStart now = now.abs - now.abs % 86400 - unixToInternal := by
    unfold dayStart; rw [hsod]
  have hu : (wallToday now h m).unixSec =
      dayStart now - (now.loc.lookup now.unixSec).1 + (h * 3600 + m * 60) := by
    have hsec : (wallToday now h m).sec =
        now.sec - secondsOfDay now + (h * 3600 + m * 60) := rfl
    have hun : now.unixSec = now.sec - unixToInternal := rfl
    have hun2 : (wallToday now h m).unixSec = (wallToday now h m).sec - unixToInternal := rfl
    rw [hun2, hsec, hsod]
    omega
  have hl : (wallToday now h m).loc.lookup (wallToday now h m).unixSec =
      now.loc.lookup now.unixSec := by
    rw [hu]
    exact lookup_stable now.loc now.unixSec _ hinc (by omega) (by omega)
  have hab : (wallToday now h m).abs = now.abs - now.abs % 86400 + (h * 3600 + m * 60) := by
    have hsec : (wallToday now h m).sec =
        now.sec - secondsOfDay now + (h * 3600 + m * 60) := rfl
    rw [abs_eq, hl, hsec, hsod]
    omega
  have hd : (wallToday now h m).abs / secondsPerDay = now.abs / secondsPerDay := by
    rw [hab]
    unfold secondsPerDay secondsPerHour secondsPerMinute
    omega
  have hda : absDate (wallToday now h m).abs = absDate now.abs := by
    unfold absDate
    rw [hd]
  refine ⟨?_, ?_, ?_, ?_, ?_, rfl⟩
  · unfold Time.Year; rw [hda]
  · unfold Time.Month; rw [hda]
  · unfold Time.Day; rw [hda]
  · unfold Time.Hour
    rw [hab]
    unfold secondsPerDay secondsPerHour secondsPerMinute
    omega
  · unfold Time.Minute
    rw [hab]
    unfold secondsPerHour secondsPerMinute
    omega

/-- Being strictly after `wallToday now h m`, read on the wall clock: more seconds have passed
since midnight than `h:m:00`, or as many and some nanoseconds more. -/
theorem wallToday_lt_iff (now : Time) (h m : Int) :
    (wallToday now h m).lt now ↔
      h * 3600 + m * 60 < secondsOfDay now ∨
        (h * 3600 + m * 60 = secondsOfDay now ∧ 0 < now.nsec) := by
  unfold Time.lt wallToday
  simp only
  constructor
  · rintro (h1 | ⟨h1, h2⟩)
    · left; omega
    · right; exact ⟨by omega, h2⟩
  · rintro (h1 | ⟨h1, h2⟩)
    · left; omega
    · right; exact ⟨by omega, h2⟩

/-- Being strictly before `wallToday now h m`, read on the wall clock. -/
theorem lt_wallToday_iff (now : Time) (h m : Int) :
    now.lt (wallToday now h m) ↔
      secondsOfDay now < h * 3600 + m * 60 ∨
        (secondsOfDay now = h * 3600 + m * 60 ∧ now.nsec < 0) := by
  unfold Time.lt wallToday
  simp only
  constructor
  · rintro (h1 | ⟨h1, h2⟩)
    · left; omega
    · right; exact ⟨by omega, h2⟩
  · rintro (h1 | ⟨h1, h2⟩)
    · left; omega
    · right; exact ⟨by omega, h2⟩

/-! ## `time.Parse` with layout `15:04` -/

/-- Either `time.Parse` fails and returns the zero time, or it succeeds with an hour below 24
and a minute below 60. -/
theorem Parse1504_cases (s : String) :
    ((∃ e, (Parse1504 s).2 = some e) ∧ (Parse1504 s).1 = zeroTime) ∨
    (∃ h m : Int, 0 ≤ h ∧ h < 24 ∧ 0 ≤ m ∧ m < 60 ∧
      Parse1504 s = (Date 0 1 1 h m 0 0 UTC, none)) := by
  unfold Parse1504
  simp only
  split
  · exact Or.inl ⟨⟨_, rfl⟩, rfl⟩
  · split
    · exact Or.inl ⟨⟨_, rfl⟩, rfl⟩
    · split
      · exact Or.inl ⟨⟨_, rfl⟩, rfl⟩
      · split
        · exact Or.inl ⟨⟨_, rfl⟩, rfl⟩
        · split
          · exact Or.inl ⟨⟨_, rfl⟩, rfl⟩
          · split
            · exact Or.inl ⟨⟨_, rfl⟩, rfl⟩
            · rename_i h1 _ _ _ _ h2 _ _
              simp only [Bool.or_eq_true, decide_eq_true_eq, not_or, not_lt, not_le] at h1 h2
              exact Or.inr ⟨_, _, h1.1, h1.2, h2.1, h2.2, rfl⟩

theorem zoneAdjust_UTC (u : Int) : zoneAdjust UTC u = u := by
  unfold zoneAdjust UTC Location.lookup lookupFrom
  simp

theorem Date_zero_clock (h m : Int) (hh0 : 0 ≤ h) (hh1 : h < 24) (hm0 : 0 ≤ m) (hm1 : m < 60) :
    (Date 0 1 1 h m 0 0 UTC).Hour = h ∧ (Date 0 1 1 h m 0 0 UTC).Minute = m := by
  rw [Date_inRange 0 1 1 h m 0 0 UTC (by omega) (by omega) hh0 hh1 hm0 hm1 (by omega)
    (by omega) (by omega) (by omega)]
  have e1 : daysSinceEpoch 0 = -366 := by decide
  have e2 : daysBeforeAt (1 - 1) = 0 := by decide
  have e3 : (isLeap 0 && decide ((1 : Int) ≥ 3)) = false := by decide
  rw [e1, e2, e3, zoneAdjust_UTC]
  have hl : ∀ x : Int, (UTC.lookup x).1 = 0 := fun x => rfl
  simp only [Time.Hour, Time.Minute, abs_eq, hl, secondsPerDay, secondsPerHour,
    secondsPerMinute]
  constructor <;> omega


/-- What `clockOf` says about the time that `inActiveTime` takes from `time.Parse`: a valid
string gives its hour and minute, within range. -/
theorem clockOf_some (s : String) (h m : Int) (hs : clockOf s = some (h, m)) :
    (Parse1504 s).1.Hour = h ∧ (Parse1504 s).1.Minute = m ∧
      0 ≤ h ∧ h < 24 ∧ 0 ≤ m ∧ m < 60 := by
  rcases Parse1504_cases s with ⟨⟨e, he⟩, _⟩ | ⟨h', m', a1, a2, a3, a4, hp⟩
  · unfold clockOf at hs
    split at hs
    · rename_i heq
      rw [heq] at he
      simp at he
    · simp at hs
  · unfold clockOf at hs
    rw [hp] at hs ⊢
    simp only [Option.some.injEq, Prod.mk.injEq] at hs
    obtain ⟨c1, c2⟩ := Date_zero_clock h' m' a1 a2 a3 a4
    rw [c1] at hs
    rw [c2] at hs
    obtain ⟨rfl, rfl⟩ := hs
    exact ⟨c1, c2, a1, a2, a3, a4⟩

/-- An invalid string leaves `inActiveTime` with the zero time: hour 0 and minute 0. -/
theorem clockOf_none (s : String) (hs : clockOf s = none) :
    (Parse1504 s).1.Hour = 0 ∧ (Parse1504 s).1.Minute = 0 := by
  rcases Parse1504_cases s with ⟨_, hz⟩ | ⟨h', m', a1, a2, a3, a4, hp⟩
  · rw [hz]
    constructor <;> decide
  · unfold clockOf at hs
    rw [hp] at hs
    simp at hs

/-- The layout `15:04` on some strings: one or two digits for the hour, exactly two for the
minute, nothing before or after, hour below 24 and minute below 60. -/
theorem clockOf_examples :
    clockOf "09:00" = some (9, 0) ∧ clockOf "9:05" = some (9, 5) ∧
    clockOf "23:59" = some (23, 59) ∧ clockOf "00:00" = some (0, 0) ∧
    clockOf "24:00" = none ∧ clockOf "12:60" = none ∧ clockOf "12:3" = none ∧
    clockOf "12:345" = none ∧ clockOf "123:45" = none ∧ clockOf "" = none ∧
    clockOf " 12:30" = none ∧ clockOf "12:30 " = none ∧ clockOf "12-30" = none ∧
    clockOf "12:30:00" = none ∧ clockOf "xx" = none := by
  decide

/-! ## `inActiveTime` -/

theorem After_iff (t u : Time) : t.After u = true ↔ u.lt t := by
  unfold Time.After Time.lt
  simp only [Bool.or_eq_true, Bool.and_eq_true, decide_eq_true_eq, beq_iff_eq, gt_iff_lt]
  constructor
  · rintro (h | ⟨h1, h2⟩)
    · exact Or.inl h
    · exact Or.inr ⟨h1.symm, h2⟩
  · rintro (h | ⟨h1, h2⟩)
    · exact Or.inl h
    · exact Or.inr ⟨h1.symm, h2⟩

theorem Before_iff (t u : Time) : t.Before u = true ↔ t.lt u := by
  unfold Time.Before Time.lt
  simp only [Bool.or_eq_true, Bool.and_eq_true, decide_eq_true_eq, beq_iff_eq]

/-- The hour and minute that `inActiveTime` reads off a parse result are always a time of
day, whether the parse succeeded or not. -/
theorem rawClock_range (s : String) :
    0 ≤ (Parse1504 s).1.Hour ∧ (Parse1504 s).1.Hour < 24 ∧
      0 ≤ (Parse1504 s).1.Minute ∧ (Parse1504 s).1.Minute < 60 := by
  rcases Parse1504_cases s with ⟨_, hz⟩ | ⟨h, m, a1, a2, a3, a4, hp⟩
  · rw [hz]
    decide
  · rw [hp]
    obtain ⟨c1, c2⟩ := Date_zero_clock h m a1 a2 a3 a4
    simp only [c1, c2]
    exact ⟨a1, a2, a3, a4⟩

/-- One round of the loop of `inActiveTime`, with the two instants written as `todayAt`. -/
theorem inActiveTimeLoop_cons (now : Time) (tr : TimeRange) (rest : List (Option TimeRange)) :
    inActiveTimeLoop now (some tr :: rest) =
      if (todayAt now (Parse1504 tr.Start).1.Hour (Parse1504 tr.Start).1.Minute).lt now ∧
          now.lt (todayAt now (Parse1504 tr.End).1.Hour (Parse1504 tr.End).1.Minute)
      then .ok true else inActiveTimeLoop now rest := by
  rw [inActiveTimeLoop]
  have hs : Date now.Year now.Month now.Day (Parse1504 tr.Start).1.Hour
      (Parse1504 tr.Start).1.Minute 0 0 now.Location =
      todayAt now (Parse1504 tr.Start).1.Hour (Parse1504 tr.Start).1.Minute := rfl
  have he : Date now.Year now.Month now.Day (Parse1504 tr.End).1.Hour
      (Parse1504 tr.End).1.Minute 0 0 now.Location =
      todayAt now (Parse1504 tr.End).1.Hour (Parse1504 tr.End).1.Minute := rfl
  simp only [hs, he]
  by_cases hc : (todayAt now (Parse1504 tr.Start).1.Hour (Parse1504 tr.Start).1.Minute).lt now ∧
      now.lt (todayAt now (Parse1504 tr.End).1.Hour (Parse1504 tr.End).1.Minute)
  · rw [if_pos hc]
    have : (now.After (todayAt now (Parse1504 tr.Start).1.Hour (Parse1504 tr.Start).1.Minute) &&
        now.Before (todayAt now (Parse1504 tr.End).1.Hour (Parse1504 tr.End).1.Minute)) = true := by
      rw [Bool.and_eq_true, After_iff, Before_iff]
      exact hc
    rw [if_pos this]
  · rw [if_neg hc]
    have : ¬ (now.After (todayAt now (Parse1504 tr.Start).1.Hour (Parse1504 tr.Start).1.Minute) &&
        now.Before (todayAt now (Parse1504 tr.End).1.Hour (Parse1504 tr.End).1.Minute)) = true := by
      rw [Bool.and_eq_true, After_iff, Before_iff]
      exact hc
    rw [if_neg this]

/-- A single range: `inActiveTime` returns, and returns true exactly between the two
instants read off the parse results. -/
theorem inActiveTimeLoop_single (now : Time) (tr : TimeRange) :
    (inActiveTimeLoop now [some tr] = .ok true ↔
      (todayAt now (Parse1504 tr.Start).1.Hour (Parse1504 tr.Start).1.Minute).lt now ∧
        now.lt (todayAt now (Parse1504 tr.End).1.Hour (Parse1504 tr.End).1.Minute)) ∧
    (inActiveTimeLoop now [some tr] = .ok false ↔
      ¬ ((todayAt now (Parse1504 tr.Start).1.Hour (Parse1504 tr.Start).1.Minute).lt now ∧
        now.lt (todayAt now (Parse1504 tr.End).1.Hour (Parse1504 tr.End).1.Minute))) := by
  rw [inActiveTimeLoop_cons]
  by_cases hc : (todayAt now (Parse1504 tr.Start).1.Hour (Parse1504 tr.Start).1.Minute).lt now ∧
      now.lt (todayAt now (Parse1504 tr.End).1.Hour (Parse1504 tr.End).1.Minute)
  · rw [if_pos hc]
    simp [hc]
  · rw [if_neg hc]
    simp [hc, inActiveTimeLoop]

/-- On a list without nil entries `inActiveTime` returns true exactly when some range of the
list is active, and false otherwise. -/
theorem inActiveTimeLoop_map_some (now : Time) (rs : List TimeRange) :
    (inActiveTimeLoop now (rs.map some) = .ok true ↔
      ∃ r ∈ rs, inActiveTimeLoop now [some r] = .ok true) ∧
    (inActiveTimeLoop now (rs.map some) = .ok false ↔
      ∀ r ∈ rs, inActiveTimeLoop now [some r] = .ok false) := by
  induction rs with
  | nil => simp [inActiveTimeLoop]
  | cons r rest ih =>
    obtain ⟨s1, s2⟩ := inActiveTimeLoop_single now r
    rw [List.map_cons, inActiveTimeLoop_cons]
    by_cases hc : (todayAt now (Parse1504 r.Start).1.Hour (Parse1504 r.Start).1.Minute).lt now ∧
        now.lt (todayAt now (Parse1504 r.End).1.Hour (Parse1504 r.End).1.Minute)
    · rw [if_pos hc]
      have h1 := s1.2 hc
      constructor
      · simp only [true_iff]
        exact ⟨r, List.mem_cons_self _ _, h1⟩
      · constructor
        · intro h; cases h
        · intro h
          have := h r (List.mem_cons_self _ _)
          rw [h1] at this
          cases this
    · rw [if_neg hc]
      have h1 := s2.2 hc
      constructor
      · rw [ih.1]
        constructor
        · rintro ⟨x, hx, hx2⟩
          exact ⟨x, List.mem_cons_of_mem _ hx, hx2⟩
        · rintro ⟨x, hx, hx2⟩
          rcases List.mem_cons.1 hx with rfl | hx
          · rw [h1] at hx2; cases hx2
          · exact ⟨x, hx, hx2⟩
      · rw [ih.2]
        constructor
        · intro h x hx
          rcases List.mem_cons.1 hx with rfl | hx
          · exact h1
          · exact h x hx
        · intro h x hx
          exact h x (List.mem_cons_of_mem _ hx)


theorem inActiveTimeLoop_total (now : Time) (rs : List TimeRange) :
    inActiveTimeLoop now (rs.map some) = .ok true ∨
      inActiveTimeLoop now (rs.map some) = .ok false := by
  by_cases h : ∃ r ∈ rs, inActiveTimeLoop now [some r] = .ok true
  · exact Or.inl ((inActiveTimeLoop_map_some now rs).1.2 h)
  · refine Or.inr ((inActiveTimeLoop_map_some now rs).2.2 ?_)
    intro r hr
    by_cases hc : (todayAt now (Parse1504 r.Start).1.Hour (Parse1504 r.Start).1.Minute).lt now ∧
        now.lt (todayAt now (Parse1504 r.End).1.Hour (Parse1504 r.End).1.Minute)
    · exact absurd ⟨r, hr, (inActiveTimeLoop_single now r).1.2 hc⟩ h
    · exact (inActiveTimeLoop_single now r).2.2 hc

theorem examples_are_dates :
    noonExample = Date 2024 3 15 12 0 0 0 eastEight ∧
    eveningExample = Date 2024 3 15 20 0 0 0 eastEight ∧
    nineExample = Date 2024 3 15 9 0 0 0 eastEight ∧
    springForwardNight = Date 2024 3 10 1 30 0 0 newYork ∧
    summerNoon = Date 2024 7 4 12 0 0 0 newYork ∧
    (fallBackNight.Year, fallBackNight.Month, fallBackNight.Day, fallBackNight.Hour,
      fallBackNight.Minute) = (2024, 11, 3, 1, 15) := by
  decide

/-- Go's `time.Date` in New York on the two nights on which the clocks change in 2024, in
Unix seconds.  After the clocks went back, 01:00 and 01:30 are taken in daylight time
(05:00 and 05:30 UTC) and 00:00 is 04:00 UTC; before they go forward, 02:15, which the wall
clock skips, is placed at 06:15 UTC, ahead of 01:45 at 06:45 UTC. -/
theorem newYork_dates :
    (todayAt fallBackNight 1 0).unixSec = 1730610000 ∧
    (todayAt fallBackNight 1 30).unixSec = 1730611800 ∧
    (todayAt fallBackNight 0 0).unixSec = 1730606400 ∧
    (todayAt springForwardNight 2 15).unixSec = 1710051300 ∧
    (todayAt springForwardNight 1 45).unixSec = 1710053100 ∧
    steadyToday fallBackNight = false ∧ steadyToday springForwardNight = false ∧
    steadyToday summerNoon = true ∧ steadyToday noonExample = true := by
  decide

/-! ## The claims about `inActiveTime` -/

/-- C1: for a single range whose start and end are valid `HH:MM` strings with start earlier
than end, `inActiveTime` returns true exactly when `now` is strictly after today's date at
start:00 and strictly before today's date at end:00, and false otherwise; in particular it
returns false when `now` is exactly the start instant or exactly the end instant.  Today's
date at `h:m:00` is the instant of `time.Date` for the calendar day and zone of `now`; on a
day without a zone transition on or next to it, that is `h` hours and `m` minutes after
today's midnight, the start instant lies before the end instant, and the range is active
exactly while the wall clock is strictly between start and end. -/
theorem inActiveTime_single_valid (now : Time) (g : Globals) (tr : TimeRange)
    (hs ms he me : Int) (hcfg : g.config.TimeRanges = [some tr])
    (hstart : clockOf tr.Start = some (hs, ms)) (hend : clockOf tr.End = some (he, me))
    (horder : hs * 60 + ms < he * 60 + me) :
    (inActiveTime now g = .ok true ↔
      (todayAt now hs ms).lt now ∧ now.lt (todayAt now he me)) ∧
    (inActiveTime now g = .ok false ↔
      ¬ ((todayAt now hs ms).lt now ∧ now.lt (todayAt now he me))) ∧
    (now.sec = (todayAt now hs ms).sec → now.nsec = (todayAt now hs ms).nsec →
      inActiveTime now g = .ok false) ∧
    (now.sec = (todayAt now he me).sec → now.nsec = (todayAt now he me).nsec →
      inActiveTime now g = .ok false) ∧
    (steadyToday now = true →
      todayAt now hs ms = wallToday now hs ms ∧ todayAt now he me = wallToday now he me ∧
      (todayAt now hs ms).lt (todayAt now he me) ∧
      (inActiveTime now g = .ok true ↔
        (wallToday now hs ms).lt now ∧ now.lt (wallToday now he me))) := by
  obtain ⟨a1, a2, a3, a4, a5, a6⟩ := clockOf_some tr.Start hs ms hstart
  obtain ⟨b1, b2, b3, b4, b5, b6⟩ := clockOf_some tr.End he me hend
  have hsingle := inActiveTimeLoop_single now tr
  rw [a1, a2, b1, b2] at hsingle
  unfold inActiveTime
  rw [hcfg]
  refine ⟨hsingle.1, hsingle.2, ?_, ?_, ?_⟩
  · intro e1 e2
    refine hsingle.2.2 ?_
    rintro ⟨h1, _⟩
    unfold Time.lt at h1
    omega
  · intro e1 e2
    refine hsingle.2.2 ?_
    rintro ⟨_, h1⟩
    unfold Time.lt at h1
    omega
  · intro hsteady
    have ws := todayAt_steady now hs ms hsteady a3 a4 a5 a6
    have we := todayAt_steady now he me hsteady b3 b4 b5 b6
    refine ⟨ws, we, ?_, ?_⟩
    · rw [ws, we]
      unfold Time.lt wallToday
      simp only
      omega
    · rw [← ws, ← we]
      exact hsingle.1

/-- C1, on `09:00`-`17:00`: the range is active at 12:00 and not at 09:00 sharp, eight hours
east of UTC, and it is active at 12:00 on a summer day in New York. -/
theorem office_hours_noon_nine :
    inActiveTime noonExample officeHours = .ok true ∧
      inActiveTime nineExample officeHours = .ok false ∧
      inActiveTime summerNoon officeHours = .ok true := by
  have h1 := inActiveTime_single_valid noonExample officeHours ⟨"09:00", "17:00"⟩ 9 0 17 0 rfl
    (by decide) (by decide) (by decide)
  have h2 := inActiveTime_single_valid nineExample officeHours ⟨"09:00", "17:00"⟩ 9 0 17 0 rfl
    (by decide) (by decide) (by decide)
  have h3 := inActiveTime_single_valid summerNoon officeHours ⟨"09:00", "17:00"⟩ 9 0 17 0 rfl
    (by decide) (by decide) (by decide)
  exact ⟨h1.1.2 (by decide), h2.2.2.1 (by decide) (by decide),
    (h3.2.2.2.2 (by decide)).2.2.2.2 (by decide)⟩

/-- C2: on a list of time ranges `inActiveTime` returns true exactly when at least one range
of the list, taken alone, makes it return true, and false otherwise; the result does not
depend on the order of the ranges, and on the empty list it is false. -/
theorem inActiveTime_union (now : Time) (g : Globals) (rs : List TimeRange) :
    (inActiveTime now (withRanges g (rs.map some)) = .ok true ↔
      ∃ r ∈ rs, inActiveTime now (withRanges g [some r]) = .ok true) ∧
    (inActiveTime now (withRanges g (rs.map some)) = .ok false ↔
      ∀ r ∈ rs, inActiveTime now (withRanges g [some r]) = .ok false) ∧
    (∀ rs2 : List TimeRange, rs.Perm rs2 →
      inActiveTime now (withRanges g (rs2.map some)) =
        inActiveTime now (withRanges g (rs.map some))) ∧
    inActiveTime now (withRanges g []) = .ok false := by
  unfold inActiveTime withRanges
  simp only
  refine ⟨(inActiveTimeLoop_map_some now rs).1, (inActiveTimeLoop_map_some now rs).2, ?_, rfl⟩
  intro rs2 hp
  rcases inActiveTimeLoop_total now rs with h | h
  · rw [h]
    obtain ⟨r, hr, hr2⟩ := (inActiveTimeLoop_map_some now rs).1.1 h
    exact (inActiveTimeLoop_map_some now rs2).1.2 ⟨r, hp.mem_iff.1 hr, hr2⟩
  · rw [h]
    have hall := (inActiveTimeLoop_map_some now rs).2.1 h
    exact (inActiveTimeLoop_map_some now rs2).2.2 fun r hr => hall r (hp.mem_iff.2 hr)

/-- C3, refuted: with the start string `xx` (not a time) and the end `17:00`, the range is
active at 12:00. -/
theorem unparsed_start_is_active :
    clockOf "xx" = none ∧
      inActiveTime noonExample (withRanges officeHours [some ⟨"xx", "17:00"⟩]) = .ok true := by
  decide

/-- C3, amended: a string that `time.Parse` rejects is read as 00:00.  A range whose start
string is not valid and whose end string is valid is active exactly strictly between today's
date at 00:00:00 and today's date at end:00; a range whose end string is not valid is active
exactly strictly between today's date at its start (00:00 when that is not valid either) and
today's date at 00:00:00, which on a day without a zone transition on or next to it is
never: there it contributes false, whatever its start string. -/
theorem inActiveTime_unparsed (now : Time) (g : Globals) (tr : TimeRange)
    (hcfg : g.config.TimeRanges = [some tr]) :
    (clockOf tr.Start = none → ∀ he me : Int, clockOf tr.End = some (he, me) →
      ((inActiveTime now g = .ok true ↔
          (todayAt now 0 0).lt now ∧ now.lt (todayAt now he me)) ∧
        (inActiveTime now g = .ok false ↔
          ¬ ((todayAt now 0 0).lt now ∧ now.lt (todayAt now he me))))) ∧
    (clockOf tr.End = none → ∀ hs ms : Int,
      (clockOf tr.Start = some (hs, ms) ∨ (clockOf tr.Start = none ∧ hs = 0 ∧ ms = 0)) →
      ((inActiveTime now g = .ok true ↔
          (todayAt now hs ms).lt now ∧ now.lt (todayAt now 0 0)) ∧
        (inActiveTime now g = .ok false ↔
          ¬ ((todayAt now hs ms).lt now ∧ now.lt (todayAt now 0 0))))) ∧
    (steadyToday now = true → clockOf tr.End = none → inActiveTime now g = .ok false) ∧
    (steadyToday now = true → clockOf tr.Start = none → ∀ he me : Int,
      clockOf tr.End = some (he, me) →
      (inActiveTime now g = .ok true ↔
        (wallToday now 0 0).lt now ∧ now.lt (wallToday now he me))) := by
  have hsingle := inActiveTimeLoop_single now tr
  obtain ⟨a1, a2, a3, a4⟩ := rawClock_range tr.Start
  unfold inActiveTime
  rw [hcfg]
  refine ⟨?_, ?_, ?_, ?_⟩
  · intro hstart he me hend
    obtain ⟨c1, c2⟩ := clockOf_none tr.Start hstart
    obtain ⟨b1, b2, _, _, _, _⟩ := clockOf_some tr.End he me hend
    rw [c1, c2, b1, b2] at hsingle
    exact hsingle
  · intro hend hs ms hstart
    obtain ⟨b1, b2⟩ := clockOf_none tr.End hend
    rcases hstart with hstart | ⟨hstart, rfl, rfl⟩
    · obtain ⟨c1, c2, _, _, _, _⟩ := clockOf_some tr.Start hs ms hstart
      rw [c1, c2, b1, b2] at hsingle
      exact hsingle
    · obtain ⟨c1, c2⟩ := clockOf_none tr.Start hstart
      rw [c1, c2, b1, b2] at hsingle
      exact hsingle
  · intro hsteady hend
    obtain ⟨b1, b2⟩ := clockOf_none tr.End hend
    rw [b1, b2] at hsingle
    refine hsingle.2.2 ?_
    rw [todayAt_steady now _ _ hsteady a1 a2 a3 a4,
      todayAt_steady now 0 0 hsteady (by omega) (by omega) (by omega) (by omega)]
    rintro ⟨h1, h2⟩
    have hsod : 0 ≤ secondsOfDay now := by
      unfold secondsOfDay secondsPerDay secondsPerHour secondsPerMinute
      omega
    unfold Time.lt wallToday at h1 h2
    simp only at h1 h2
    omega
  · intro hsteady hstart he me hend
    obtain ⟨c1, c2⟩ := clockOf_none tr.Start hstart
    obtain ⟨b1, b2, b3, b4, b5, b6⟩ := clockOf_some tr.End he me hend
    rw [c1, c2, b1, b2] at hsingle
    rw [← todayAt_steady now 0 0 hsteady (by omega) (by omega) (by omega) (by omega),
      ← todayAt_steady now he me hsteady b3 b4 b5 b6]
    exact hsingle.1

/-- C3, amended, on concrete ranges: `09:00`-`xx` is inactive at 12:00, `xx`-`17:00` is
inactive at 20:00, and in New York, after the clocks went back, `xx`-`01:30` is inactive at
the second 01:15. -/
theorem unparsed_examples :
    inActiveTime noonExample (withRanges officeHours [some ⟨"09:00", "xx"⟩]) = .ok false ∧
      inActiveTime eveningExample (withRanges officeHours [some ⟨"xx", "17:00"⟩]) =
        .ok false ∧
      inActiveTime fallBackNight (withRanges officeHours [some ⟨"xx", "01:30"⟩]) =
        .ok false := by
  have h1 := inActiveTime_unparsed noonExample
    (withRanges officeHours [some ⟨"09:00", "xx"⟩]) ⟨"09:00", "xx"⟩ rfl
  have h2 := inActiveTime_unparsed eveningExample
    (withRanges officeHours [some ⟨"xx", "17:00"⟩]) ⟨"xx", "17:00"⟩ rfl
  have h3 := inActiveTime_unparsed fallBackNight
    (withRanges officeHours [some ⟨"xx", "01:30"⟩]) ⟨"xx", "01:30"⟩ rfl
  exact ⟨h1.2.2.1 (by decide) (by decide), ((h2.1 (by decide) 17 0 (by decide)).2).2 (by decide),
    ((h3.1 (by decide) 1 30 (by decide)).2).2 (by decide)⟩

/-- C10, refuted: in New York on 2024-03-10 at 01:30 EST, the range `02:15`-`01:45`, whose
start is later than its end, is active: `time.Date` places 02:15, which that night's wall
clock skips, at 06:15 UTC and 01:45 at 06:45 UTC, and `now` is 06:30 UTC. -/
theorem spring_forward_range_active :
    clockOf "02:15" = some (2, 15) ∧ clockOf "01:45" = some (1, 45) ∧
      inActiveTime springForwardNight (withRanges officeHours [some ⟨"02:15", "01:45"⟩]) =
        .ok true := by
  decide

/-- C10, amended: on a day without a zone transition on or next to it, a range whose start
and end are valid `HH:MM` strings with start not earlier than end (crossing midnight, or
start equal to end) is not active: `inActiveTime` on the list containing just that range
returns false. -/
theorem inActiveTime_start_not_before_end (now : Time) (g : Globals) (tr : TimeRange)
    (hs ms he me : Int) (hcfg : g.config.TimeRanges = [some tr])
    (hstart : clockOf tr.Start = some (hs, ms)) (hend : clockOf tr.End = some (he, me))
    (horder : he * 60 + me ≤ hs * 60 + ms) (hsteady : steadyToday now = true) :
    inActiveTime now g = .ok false := by
  obtain ⟨a1, a2, a3, a4, a5, a6⟩ := clockOf_some tr.Start hs ms hstart
  obtain ⟨b1, b2, b3, b4, b5, b6⟩ := clockOf_some tr.End he me hend
  have hsingle := inActiveTimeLoop_single now tr
  rw [a1, a2, b1, b2] at hsingle
  unfold inActiveTime
  rw [hcfg]
  refine hsingle.2.2 ?_
  rw [todayAt_steady now hs ms hsteady a3 a4 a5 a6,
    todayAt_steady now he me hsteady b3 b4 b5 b6]
  rintro ⟨h1, h2⟩
  unfold Time.lt wallToday at h1 h2
  simp only at h1 h2
  omega

/-- C10, amended, on `22:00`-`02:00`: inactive at 12:00 eight hours east of UTC and at 12:00
on a summer day in New York. -/
theorem overnight_range_example :
    inActiveTime noonExample (withRanges officeHours [some ⟨"22:00", "02:00"⟩]) =
      .ok false ∧
    inActiveTime summerNoon (withRanges officeHours [some ⟨"22:00", "02:00"⟩]) =
      .ok false :=
  ⟨inActiveTime_start_not_before_end noonExample
    (withRanges officeHours [some ⟨"22:00", "02:00"⟩]) ⟨"22:00", "02:00"⟩ 22 0 2 0 rfl
    (by decide) (by decide) (by decide) (by decide),
   inActiveTime_start_not_before_end summerNoon
    (withRanges officeHours [some ⟨"22:00", "02:00"⟩]) ⟨"22:00", "02:00"⟩ 22 0 2 0 rfl
    (by decide) (by decide) (by decide) (by decide)⟩

/-! ## `simulateDoubleCapsLock` -/

/-- C5: the steps that `simulateDoubleCapsLock` executes are the prefix of press, 10ms,
release, 10ms, press, 100ms, release that ends at the first failing key operation, whose error
it returns; when no operation fails it executes all seven steps, sleeps 120ms in total and
returns no error. -/
theorem simulateDoubleCapsLock_steps {κ : Type} (kb : KeyBonding κ) (k : κ) :
    (simulateDoubleCapsLock kb k).1 =
      doublePress.take (2 * successesBefore (keyResults kb k) + 1) ∧
    (simulateDoubleCapsLock kb k).2.2 = firstError (keyResults kb k) ∧
    (keyOps (simulateDoubleCapsLock kb k).1).length =
      min (successesBefore (keyResults kb k) + 1) 4 ∧
    (firstError (keyResults kb k) = none →
      (simulateDoubleCapsLock kb k).1 = doublePress ∧
      sleepTotal (simulateDoubleCapsLock kb k).1 = 120 ∧
      (simulateDoubleCapsLock kb k).2.2 = none) := by
  unfold simulateDoubleCapsLock keyResults
  rcases h1 : kb.Press k with ⟨e1, k1⟩
  rcases h2 : kb.Release k1 with ⟨e2, k2⟩
  rcases h3 : kb.Press k2 with ⟨e3, k3⟩
  rcases h4 : kb.Release k3 with ⟨e4, k4⟩
  cases e1 <;> cases e2 <;> cases e3 <;> cases e4 <;>
    simp [h2, h3, h4, successesBefore, firstError, doublePress, sleepTotal, keyOps]


/-! ## The loop of `main` -/

theorem calls_append (a b : List Effect) : calls (a ++ b) = calls a ++ calls b := by
  induction a with
  | nil => rfl
  | cons x rest ih => cases x <;> simp [calls, ih]

theorem keyOps_append (a b : List Effect) : keyOps (a ++ b) = keyOps a ++ keyOps b := by
  induction a with
  | nil => rfl
  | cons x rest ih => cases x <;> simp [keyOps, ih]

theorem calls_simulate {κ : Type} (kb : KeyBonding κ) (k : κ) :
    calls (simulateDoubleCapsLock kb k).1 = [] := by
  unfold simulateDoubleCapsLock
  rcases kb.Press k with ⟨e1, k1⟩
  rcases h2 : kb.Release k1 with ⟨e2, k2⟩
  rcases h3 : kb.Press k2 with ⟨e3, k3⟩
  rcases h4 : kb.Release k3 with ⟨e4, k4⟩
  cases e1 <;> cases e2 <;> cases e3 <;> cases e4 <;> simp [h2, h3, h4, calls]

/-- Every assignment of results to the four key operations is the behaviour of some key
device. -/
theorem keyResults_scripted (r1 r2 r3 r4 : Option String) :
    keyResults (scriptedKeys [r1, r2, r3, r4]) 0 = [r1, r2, r3, r4] := rfl

/-- A nil entry in `time_ranges` that is reached by the loop makes `inActiveTime` panic; the
tick then ends in the panic, before any call of the trigger. -/
theorem mainTick_nil_entry {κ : Type} (kb : KeyBonding κ) (now : Time) (g : Globals) (k : κ)
    (rest : List (Option TimeRange)) (hcfg : g.config.TimeRanges = none :: rest) :
    inActiveTime now g = .panic ∧ (mainTick kb now g k).out = .panic ∧
      (mainTick kb now g k).trace = [] := by
  have h : inActiveTime now g = .panic := by
    unfold inActiveTime
    rw [hcfg]
    rfl
  unfold mainTick
  rw [h]
  exact ⟨rfl, rfl, rfl⟩

/-- On a list without nil entries `inActiveTime` returns. -/
theorem inActiveTimeLoop_returns (now : Time) (l : List (Option TimeRange))
    (h : ∀ e ∈ l, e ≠ none) :
    inActiveTimeLoop now l = .ok true ∨ inActiveTimeLoop now l = .ok false := by
  induction l with
  | nil => exact Or.inr rfl
  | cons e rest ih =>
    cases e with
    | none => exact absurd rfl (h none (List.mem_cons_self _ _))
    | some tr =>
      rw [inActiveTimeLoop_cons]
      split
      · exact Or.inl rfl
      · exact ih fun x hx => h x (List.mem_cons_of_mem _ hx)

/-- C6, refuted: with a null entry in `time_ranges` the tick at 12:00 ends in a panic; the
loop is not running after it. -/
theorem null_entry_tick_panics :
    (mainTick workingKeys noonExample (withRanges officeHours [none]) 0).out = .panic ∧
      (mainTick workingKeys noonExample (withRanges officeHours [none]) 0).out ≠
        .ok .running := by
  decide

/-- C6, amended: on a tick, handled with the logger in place, with any stored configuration
and any current time, the trigger is invoked exactly once when `inActiveTime` returns true for
the stored configuration and not at all otherwise; after an active tick the loop is still
running whether the key device succeeded or failed, after an inactive tick it is still running
with nothing done, and the tick leaves the globals alone.  For every stored configuration
whose `time_ranges` has no null entry, `inActiveTime` returns, so the loop is still running
after the tick. -/
theorem mainTick_fires_iff_active {κ : Type} (kb : KeyBonding κ) (now : Time) (lg : Logger)
    (cfg : Config) (k : κ) :
    (calls (mainTick kb now ⟨some lg, cfg⟩ k).trace).count .simulateDoubleCapsLock =
      (if inActiveTime now ⟨some lg, cfg⟩ = .ok true then 1 else 0) ∧
    (inActiveTime now ⟨some lg, cfg⟩ = .ok true →
      (mainTick kb now ⟨some lg, cfg⟩ k).out = .ok .running ∧
      keyOps (mainTick kb now ⟨some lg, cfg⟩ k).trace =
        keyOps (simulateDoubleCapsLock kb k).1 ∧
      (mainTick kb now ⟨some lg, cfg⟩ k).dev = (simulateDoubleCapsLock kb k).2.1) ∧
    (inActiveTime now ⟨some lg, cfg⟩ = .ok false →
      (mainTick kb now ⟨some lg, cfg⟩ k).out = .ok .running ∧
      (mainTick kb now ⟨some lg, cfg⟩ k).trace = [] ∧
      (mainTick kb now ⟨some lg, cfg⟩ k).dev = k) ∧
    ((∀ e ∈ cfg.TimeRanges, e ≠ none) →
      (inActiveTime now ⟨some lg, cfg⟩ = .ok true ∨
        inActiveTime now ⟨some lg, cfg⟩ = .ok false) ∧
      (mainTick kb now ⟨some lg, cfg⟩ k).out = .ok .running) ∧
    (mainTick kb now ⟨some lg, cfg⟩ k).globals = ⟨some lg, cfg⟩ := by
  have hc := calls_simulate kb k
  have hret : (∀ e ∈ cfg.TimeRanges, e ≠ none) →
      (inActiveTime now ⟨some lg, cfg⟩ = .ok true ∨
        inActiveTime now ⟨some lg, cfg⟩ = .ok false) := fun h =>
    inActiveTimeLoop_returns now cfg.TimeRanges h
  unfold mainTick
  rcases hact : inActiveTime now ⟨some lg, cfg⟩ with b | _ | c
  · cases b
    · simp [calls]
    · rcases hsim : simulateDoubleCapsLock kb k with ⟨tr1, k1, err⟩
      rw [hsim] at hc
      cases err <;> simp [logCall, calls, calls_append, hc, keyOps, keyOps_append]
  · rw [hact] at hret
    simp only [calls, List.count_nil]
    refine ⟨by simp, by simp, by simp, ?_, trivial⟩
    intro h
    rcases hret h with h1 | h1 <;> cases h1
  · rw [hact] at hret
    simp only [calls, List.count_nil]
    refine ⟨by simp, by simp, by simp, ?_, trivial⟩
    intro h
    rcases hret h with h1 | h1 <;> cases h1

/-- C6, amended, on the range `09:00`-`17:00`: a tick at 12:00 invokes the trigger once, on a working
and on a failing key device, a tick at 20:00 does not invoke it, and the loop keeps running. -/
theorem office_hours_ticks :
    (calls (mainTick workingKeys noonExample officeHours 0).trace).count
        .simulateDoubleCapsLock = 1 ∧
    (mainTick workingKeys noonExample officeHours 0).out = .ok .running ∧
    (calls (mainTick failingKeys noonExample officeHours 0).trace).count
        .simulateDoubleCapsLock = 1 ∧
    (mainTick failingKeys noonExample officeHours 0).out = .ok .running ∧
    (calls (mainTick workingKeys eveningExample officeHours 0).trace).count
        .simulateDoubleCapsLock = 0 ∧
    (mainTick workingKeys eveningExample officeHours 0).out = .ok .running := by
  have hn : inActiveTime noonExample officeHours = .ok true := by decide
  have he : inActiveTime eveningExample officeHours = .ok false := by decide
  have h1 := mainTick_fires_iff_active workingKeys noonExample defaultLogger
    officeHours.config 0
  have h2 := mainTick_fires_iff_active failingKeys noonExample defaultLogger
    officeHours.config 0
  have h3 := mainTick_fires_iff_active workingKeys eveningExample defaultLogger
    officeHours.config 0
  refine ⟨?_, (h1.2.1 hn).1, ?_, (h2.2.1 hn).1, ?_, (h3.2.2.1 he).1⟩
  · rw [show officeHours = ⟨some defaultLogger, officeHours.config⟩ from rfl, h1.1]
    exact if_pos hn
  · rw [show officeHours = ⟨some defaultLogger, officeHours.config⟩ from rfl, h2.1]
    exact if_pos hn
  · rw [show officeHours = ⟨some defaultLogger, officeHours.config⟩ from rfl, h3.1]
    rw [show (⟨some defaultLogger, officeHours.config⟩ : Globals) = officeHours from rfl, he]
    decide

/-! ## `loadConfig` and the watcher -/

theorem loadConfig_decoded {κ : Type} (w : World) (g : Globals) (k : κ) (cfg : Config)
    (h : decodedConfig w = some cfg) :
    loadConfig w g k = ⟨[.call .loadConfig], { g with config := cfg }, k, .ok ()⟩ := by
  unfold decodedConfig at h
  unfold loadConfig
  rcases hr : w.ReadFile "config.yaml" with e | data
  · rw [hr] at h; cases h
  · rw [hr] at h
    simp only at h ⊢
    rcases hu : w.Unmarshal data with e | c
    · rw [hu] at h; cases h
    · rw [hu] at h
      simp only [Option.some.injEq] at h
      subst h
      rfl

theorem loadConfig_failed {κ : Type} (w : World) (lg : Logger) (cfg : Config) (k : κ)
    (h : decodedConfig w = none) :
    (loadConfig w ⟨some lg, cfg⟩ k).out = .exit 1 ∧
    (loadConfig w ⟨some lg, cfg⟩ k).globals = ⟨some lg, cfg⟩ ∧
    (loadConfig w ⟨some lg, cfg⟩ k).dev = k ∧
    calls (loadConfig w ⟨some lg, cfg⟩ k).trace = [.loadConfig] := by
  unfold decodedConfig at h
  unfold loadConfig
  rcases hr : w.ReadFile "config.yaml" with e | data
  · simp [Fatalf, calls]
  · rw [hr] at h
    simp only at h ⊢
    rcases hu : w.Unmarshal data with e | c
    · simp [Fatalf, calls]
    · rw [hu] at h; cases h

/-- C4, refuted: a write to `config.yaml` while the file cannot be read ends the process with
exit status 1. -/
theorem unreadable_reload_exits :
    isConfigChange writeEvent = true ∧ decodedConfig unreadableWorld = none ∧
      (watchEvent unreadableWorld logReload writeEvent officeHours (0 : Nat)).out =
        .exit 1 := by
  decide

/-- C4, amended: when the watcher handles a matching file event and reloading fails (the file
cannot be read, or its content does not decode), `loadConfig` ends the process through
`logger.Fatalf` with exit status 1; the stored configuration and the logger are as they
were before the event, and `initLogger` and `onReload` are not run. -/
theorem watchEvent_reload_failure {κ : Type} (w : World)
    (onReload : Globals → Globals × List Effect) (event : Event) (lg : Logger) (cfg : Config)
    (k : κ) (hmatch : isConfigChange event = true) (hfail : decodedConfig w = none) :
    (watchEvent w onReload event ⟨some lg, cfg⟩ k).out = .exit 1 ∧
    (watchEvent w onReload event ⟨some lg, cfg⟩ k).globals = ⟨some lg, cfg⟩ ∧
    calls (watchEvent w onReload event ⟨some lg, cfg⟩ k).trace = [.loadConfig] := by
  obtain ⟨h1, h2, h3, h4⟩ := loadConfig_failed w lg cfg k hfail
  unfold watchEvent
  rw [if_pos hmatch]
  simp only [logCall, h1, h2, calls_append, h4]
  simp [calls]

/-- C4, amended, on a file that does not decode: the process exits and the configuration
`09:00`-`17:00` is still the stored one. -/
theorem malformed_reload_example :
    (watchEvent malformedWorld logReload writeEvent officeHours (0 : Nat)).out = .exit 1 ∧
    (watchEvent malformedWorld logReload writeEvent officeHours (0 : Nat)).globals =
      officeHours ∧
    calls (watchEvent malformedWorld logReload writeEvent officeHours (0 : Nat)).trace =
      [.loadConfig] :=
  watchEvent_reload_failure malformedWorld logReload writeEvent defaultLogger
    officeHours.config 0 (by decide) (by decide)


theorem and_write_iff (n : Nat) : (n &&& Write == Write) = n.testBit 1 := by
  have h := Nat.and_two_pow n 1
  simp only [pow_one] at h
  unfold Write
  rw [h]
  cases n.testBit 1 <;> simp

theorem and_create_iff (n : Nat) : (n &&& Create == Create) = n.testBit 0 := by
  have h := Nat.and_two_pow n 0
  simp only [pow_zero, mul_one] at h
  unfold Create
  rw [h]
  cases n.testBit 0 <;> simp

/-- The filter of the watcher: same base name as the tracked path, and the Write bit or the
Create bit set. -/
theorem isConfigChange_iff (event : Event) :
    isConfigChange event = true ↔
      Base event.Name = Base configPath ∧
        (event.Op.testBit 1 = true ∨ event.Op.testBit 0 = true) := by
  unfold isConfigChange
  rw [and_write_iff, and_create_iff]
  simp

/-- C7, refuted: on a write to `config.yaml` whose content does not decode, the watcher calls
`loadConfig` and nothing after it: neither `initLogger` nor `onReload` runs. -/
theorem malformed_reload_calls :
    isConfigChange writeEvent = true ∧
      calls (watchEvent malformedWorld logReload writeEvent officeHours (0 : Nat)).trace =
        [.loadConfig] ∧
      calls (watchEvent malformedWorld logReload writeEvent officeHours (0 : Nat)).trace ≠
        [.loadConfig, .initLogger, .onReload] := by
  decide

/-- C7, amended: the watcher starts the reload sequence, calling `loadConfig`, exactly for the
events whose base name equals the base name of the tracked path and whose operation bits
include Write or Create.  When `loadConfig` succeeds, `initLogger` and then `onReload` follow
in that order and the decoded configuration is in force; when it fails the process ends inside
`loadConfig`.  Every other event leaves the stored configuration and the logger unchanged and
calls nothing. -/
theorem watchEvent_filter {κ : Type} (w : World)
    (onReload : Globals → Globals × List Effect) (event : Event) (lg : Logger) (cfg : Config)
    (k : κ) :
    (isConfigChange event = true ↔
      Base event.Name = Base configPath ∧
        (event.Op.testBit 1 = true ∨ event.Op.testBit 0 = true)) ∧
    (.loadConfig ∈ calls (watchEvent w onReload event ⟨some lg, cfg⟩ k).trace ↔
      isConfigChange event = true) ∧
    (isConfigChange event = true → ∀ cfg2, decodedConfig w = some cfg2 →
      (watchEvent w onReload event ⟨some lg, cfg⟩ k).out = .ok () ∧
      calls (watchEvent w onReload event ⟨some lg, cfg⟩ k).trace =
        [.loadConfig, .initLogger, .onReload] ++
          calls (onReload (initLogger w ⟨some lg, cfg2⟩ k).globals).2 ∧
      (watchEvent w onReload event ⟨some lg, cfg⟩ k).globals =
        (onReload (initLogger w ⟨some lg, cfg2⟩ k).globals).1 ∧
      (initLogger w ⟨some lg, cfg2⟩ k).globals.config = cfg2) ∧
    (isConfigChange event = true → decodedConfig w = none →
      (watchEvent w onReload event ⟨some lg, cfg⟩ k).out = .exit 1 ∧
      calls (watchEvent w onReload event ⟨some lg, cfg⟩ k).trace = [.loadConfig]) ∧
    (isConfigChange event = false →
      (watchEvent w onReload event ⟨some lg, cfg⟩ k).out = .ok () ∧
      (watchEvent w onReload event ⟨some lg, cfg⟩ k).trace = [] ∧
      (watchEvent w onReload event ⟨some lg, cfg⟩ k).globals = ⟨some lg, cfg⟩) := by
  refine ⟨isConfigChange_iff event, ?_, ?_, ?_, ?_⟩
  · by_cases hm : isConfigChange event = true
    · simp only [hm, iff_true]
      unfold watchEvent
      rw [if_pos hm]
      rcases hd : decodedConfig w with _ | cfg2
      · obtain ⟨h1, h2, h3, h4⟩ := loadConfig_failed w lg cfg k hd
        simp [logCall, h1, calls_append, h4, calls]
      · rw [loadConfig_decoded w ⟨some lg, cfg⟩ k cfg2 hd]
        simp [logCall, initLogger, calls_append, calls]
    · simp only [hm, iff_false]
      unfold watchEvent
      rw [if_neg hm]
      simp [calls]
  · intro hm cfg2 hd
    unfold watchEvent
    rw [if_pos hm, loadConfig_decoded w ⟨some lg, cfg⟩ k cfg2 hd]
    simp [logCall, initLogger, calls_append, calls]
  · intro hm hd
    obtain ⟨h1, h2, h3, h4⟩ := loadConfig_failed w lg cfg k hd
    unfold watchEvent
    rw [if_pos hm]
    simp [logCall, h1, calls_append, h4, calls]
  · intro hm
    unfold watchEvent
    rw [if_neg (by simp [hm])]
    simp

/-- C7, amended, on concrete events: a write to `./config.yaml` that decodes runs
`loadConfig`, `initLogger`, `onReload` in that order and installs the new ranges, while a
write to another file and a chmod of `config.yaml` do nothing. -/
theorem filter_examples :
    calls (watchEvent fiveSecondWorld logReload writeEvent officeHours (0 : Nat)).trace =
      [.loadConfig, .initLogger, .onReload] ∧
    (watchEvent fiveSecondWorld logReload writeEvent officeHours (0 : Nat)).globals.config.TimeRanges =
      [some ⟨"08:00", "12:00"⟩] ∧
    (watchEvent fiveSecondWorld logReload ⟨"./other.yaml", Write⟩ officeHours (0 : Nat)).globals =
      officeHours ∧
    (watchEvent fiveSecondWorld logReload ⟨"./config.yaml", Chmod⟩ officeHours (0 : Nat)).trace =
      [] := by
  have h1 := watchEvent_filter fiveSecondWorld logReload writeEvent defaultLogger
    officeHours.config (0 : Nat)
  have h2 := watchEvent_filter fiveSecondWorld logReload ⟨"./other.yaml", Write⟩ defaultLogger
    officeHours.config (0 : Nat)
  have h3 := watchEvent_filter fiveSecondWorld logReload ⟨"./config.yaml", Chmod⟩ defaultLogger
    officeHours.config (0 : Nat)
  have a := h1.2.2.1 (by decide) _ rfl
  refine ⟨?_, ?_, (h2.2.2.2.2 (by decide)).2.2, (h3.2.2.2.2 (by decide)).2.1⟩
  · exact a.2.1
  · have := a.2.2.1
    rw [show (⟨some defaultLogger, officeHours.config⟩ : Globals) = officeHours from rfl] at this
    rw [this]
    rfl


/-! ## The tick interval -/

/-- C8, refuted: a file without `ticker` is installed by `loadConfig` with tick interval 0;
the period handed to the timer is then 0 and `time.NewTicker` panics. -/
theorem zero_ticker_installed :
    (loadConfig noTickerWorld ⟨none, zeroConfig⟩ (0 : Nat)).out = .ok () ∧
    (loadConfig noTickerWorld ⟨none, zeroConfig⟩ (0 : Nat)).globals.config.Ticker = 0 ∧
    tickerPeriod (loadConfig noTickerWorld ⟨none, zeroConfig⟩ (0 : Nat)).globals = 0 ∧
    (mainStart noTickerWorld ⟨none, zeroConfig⟩ (0 : Nat)).out = .panic := by
  decide

/-- The start of `main` once `loadConfig` has succeeded, without daemonizing and with a key
device: the outcome is that of `time.NewTicker` on the period of the decoded configuration. -/
theorem mainStart_decoded {κ : Type} (w : World) (g : Globals) (k : κ) (cfg : Config)
    (hdec : decodedConfig w = some cfg) (hd : cfg.Daemon = false)
    (hk : w.NewKeyBonding = none) :
    (mainStart w g k).out = NewTicker (wrapInt64 (cfg.Ticker * 1000000000)) := by
  unfold mainStart
  rw [loadConfig_decoded w g k cfg hdec]
  simp only [hd, hk, initLogger, logCall, Bool.false_eq_true, if_false, tickerPeriod]

/-- C8, amended: `loadConfig` installs the decoded configuration as it is, without checking
the tick interval.  The installed tick interval is the decoded one, and the period handed to
the timer at startup is that many seconds in nanoseconds, wrapped to 64 bits.  When the tick
interval lies between 1 and 9223372036 seconds the period is that many seconds, a positive
duration; when it lies between -9223372036 and 0, the period is not positive and
`time.NewTicker` panics. -/
theorem loadConfig_installs_decoded {κ : Type} (w : World) (g : Globals) (k : κ)
    (cfg : Config) (hdec : decodedConfig w = some cfg) :
    (loadConfig w g k).out = .ok () ∧
    (loadConfig w g k).globals.config = cfg ∧
    (loadConfig w g k).globals.logger = g.logger ∧
    (0 < cfg.Ticker → cfg.Ticker ≤ 9223372036 →
      tickerPeriod (loadConfig w g k).globals = cfg.Ticker * 1000000000 ∧
      0 < tickerPeriod (loadConfig w g k).globals ∧
      (cfg.Daemon = false → w.NewKeyBonding = none →
        (mainStart w g k).out = .ok (cfg.Ticker * 1000000000))) ∧
    (cfg.Ticker ≤ 0 → -9223372036 ≤ cfg.Ticker →
      tickerPeriod (loadConfig w g k).globals ≤ 0 ∧
      NewTicker (tickerPeriod (loadConfig w g k).globals) = .panic ∧
      (cfg.Daemon = false → w.NewKeyBonding = none → (mainStart w g k).out = .panic)) ∧
    (cfg.Daemon = false → w.NewKeyBonding = none →
      (mainStart w g k).out = NewTicker (wrapInt64 (cfg.Ticker * 1000000000))) := by
  have hl := loadConfig_decoded w g k cfg hdec
  have hgen := mainStart_decoded w g k cfg hdec
  rw [hl]
  refine ⟨rfl, rfl, rfl, ?_, ?_, hgen⟩
  · intro h0 h1
    have hw : wrapInt64 (cfg.Ticker * 1000000000) = cfg.Ticker * 1000000000 := by
      unfold wrapInt64
      omega
    have hp : tickerPeriod { g with config := cfg } = cfg.Ticker * 1000000000 := hw
    refine ⟨hp, by rw [hp]; omega, ?_⟩
    intro hd hk
    rw [mainStart_decoded w g k cfg hdec hd hk, hw]
    unfold NewTicker
    rw [if_neg (by omega)]
  · intro h0 h1
    have hw : wrapInt64 (cfg.Ticker * 1000000000) = cfg.Ticker * 1000000000 := by
      unfold wrapInt64
      omega
    have hp : tickerPeriod { g with config := cfg } = cfg.Ticker * 1000000000 := hw
    refine ⟨by rw [hp]; omega, ?_, ?_⟩
    · rw [hp]
      unfold NewTicker
      rw [if_pos (by omega)]
    · intro hd hk
      rw [mainStart_decoded w g k cfg hdec hd hk, hw]
      unfold NewTicker
      rw [if_pos (by omega)]

/-- C8, amended, on a file with `ticker: 5`: the period handed to the timer is five
seconds. -/
theorem five_second_example :
    (loadConfig fiveSecondWorld ⟨none, zeroConfig⟩ (0 : Nat)).globals.config.Ticker = 5 ∧
    (mainStart fiveSecondWorld ⟨none, zeroConfig⟩ (0 : Nat)).out = .ok 5000000000 := by
  have h := loadConfig_installs_decoded fiveSecondWorld ⟨none, zeroConfig⟩ (0 : Nat) _ rfl
  have h2 := h.2.2.2.1 (by decide) (by decide)
  exact ⟨by rw [h.2.1], h2.2.2 rfl rfl⟩


end CapsAutoTrigger
